import Mathlib

/-!
# The sql57 probe (`src/OVAL/probes/independent/sql57.c`)

A shallow embedding of the probe's connection-string parser, engine table,
scrubber and evaluation routine, followed by the properties established
about them.

Conventions of the embedding.

* A C string is the list of its characters before the terminating NUL
  (`CStr`), so it holds no NUL character; where a property depends on this
  it says so with `is_cstr`. A `char *` that may be `NULL` is an
  `Option CStr`.
* `long` is the 64-bit type of the LP64 targets the probe is built for and
  `int` is 32 bits wide; conversions wrap modulo `2^32`.
* Memory allocation (`strdup`) is taken to succeed.
* The character classification functions are those of the "C" locale.
* The backend library and `random ()` are outside the probe: a run is
  described together with the values they return in it.
* A call that does not return is part of the embedding: `free` on a pointer
  into the middle of an allocated block aborts the process, and reading the
  characters of a string as if they were a pointer to a string faults.
-/

namespace Sql57

/-! ## C strings and the libc functions the probe calls -/

/-- A C string, given by its characters before the terminating NUL. -/
abbrev CStr := List Char

/-- The libc function `tolower` in the "C" locale. -/
def tolower (c : Char) : Char :=
  if 65 ≤ c.toNat ∧ c.toNat ≤ 90 then Char.ofNat (c.toNat + 32) else c

/-- The libc function `isspace` in the "C" locale: space, `\t`, `\n`, `\v`,
`\f`, `\r`. -/
def isspace (c : Char) : Bool :=
  c.toNat = 32 || (9 ≤ c.toNat && c.toNat ≤ 13)

/-- The libc function `isdigit`. -/
def isdigit (c : Char) : Bool :=
  48 ≤ c.toNat && c.toNat ≤ 57

/-- The libc function `strcmp`: the difference of the first pair of
characters that differ, the end of a string counting as the NUL character. -/
def strcmp : CStr → CStr → Int
  | [], [] => 0
  | [], b :: _ => 0 - (b.toNat : Int)
  | a :: _, [] => (a.toNat : Int)
  | a :: as, b :: bs =>
    if a = b then strcmp as bs else (a.toNat : Int) - (b.toNat : Int)

/-- The libc function `strcasecmp`: `strcmp` on the lower-cased characters. -/
def strcasecmp : CStr → CStr → Int
  | [], [] => 0
  | [], b :: _ => 0 - ((tolower b).toNat : Int)
  | a :: _, [] => ((tolower a).toNat : Int)
  | a :: as, b :: bs =>
    if tolower a = tolower b then strcasecmp as bs
    else ((tolower a).toNat : Int) - ((tolower b).toNat : Int)

/-- The successive tokens that `strsep (&copy, ";")` returns until `copy`
becomes `NULL`: the pieces of the string between the `;` characters, empty
pieces included. There is always at least one token. -/
def strsep_all : CStr → List CStr
  | [] => [[]]
  | c :: s =>
    if c = ';' then [] :: strsep_all s
    else
      match strsep_all s with
      | t :: ts => (c :: t) :: ts
      | [] => [[c]]

/-- The largest value of a `long` (LP64). -/
def LONG_MAX : Int := 2 ^ 63 - 1

/-- The smallest value of a `long` (LP64). -/
def LONG_MIN : Int := -(2 ^ 63)

/-- What a call `strtol (nptr, &end, 10)` delivers: the value returned, the
number of characters consumed (`end - nptr`) and whether `errno` was set to
`ERANGE`. -/
structure strtol_result where
  val : Int
  consumed : Nat
  erange : Bool
deriving DecidableEq, Repr

/-- The value of a run of decimal digits, most significant first. -/
def digits_value (ds : List Char) : Nat :=
  ds.foldl (fun acc d => 10 * acc + (d.toNat - 48)) 0

/-- The `skipspace` macro of `dbURIInfo_parse`, which is also the way
`strtol` skips leading white space: `while (isspace(*s)) ++s;`. -/
def skipspace : CStr → CStr
  | [] => []
  | c :: s => if isspace c then skipspace s else c :: s

/-- The libc function `strtol` with base 10: leading white space, an
optional sign, then the longest run of decimal digits. Without a digit
nothing is consumed and 0 is returned; a value outside the range of `long`
is clamped and reported through `ERANGE`. -/
def strtol (nptr : CStr) : strtol_result :=
  let s1 := skipspace nptr
  let nspace := nptr.length - s1.length
  let neg : Bool := match s1 with
    | c :: _ => c.toNat = 45
    | [] => false
  let signed : Bool := match s1 with
    | c :: _ => c.toNat = 45 || c.toNat = 43
    | [] => false
  let s2 := if signed then s1.drop 1 else s1
  let ds := s2.takeWhile isdigit
  if ds.length = 0 then ⟨0, 0, false⟩
  else
    let n : Int := (digits_value ds : Int)
    let consumed := nspace + (if signed then 1 else 0) + ds.length
    if neg then
      if -n < LONG_MIN then ⟨LONG_MIN, consumed, true⟩ else ⟨-n, consumed, false⟩
    else
      if LONG_MAX < n then ⟨LONG_MAX, consumed, true⟩ else ⟨n, consumed, false⟩

/-- Conversion of a `long` to `int`, as in `int val = strtol (...)`: the
value is reduced modulo `2^32` into the range of a 32-bit signed integer. -/
def long_to_int (v : Int) : Int :=
  (v + 2 ^ 31) % 2 ^ 32 - 2 ^ 31

/-- The `errno` value `ERANGE` (Linux). -/
def ERANGE : Int := 34

/-- The `errno` value `EINVAL` (Linux). -/
def EINVAL : Int := 22

/-! ## Connection parameters and the connection-string parser -/

/-- The default connection timeout. -/
def SQLPROBE_DEFAULT_CONNTIMEOUT : Int := 30

/-- The record `dbURIInfo_t`; a `NULL` string field is `none`. -/
structure dbURIInfo_t where
  host : Option CStr
  port : Option CStr
  user : Option CStr
  pass : Option CStr
  db : Option CStr
  conn_timeout : Int
deriving DecidableEq, Repr

/-- What the body of a `matchitem` macro does with a token once the first
character selected its `case`: the alias does not match (`skip`), the alias
matches and `=` follows (`assign` of the text after `=`), or the alias
matches and no `=` follows (`fail`, the `goto __fail`). -/
inductive match_outcome where
  | skip : match_outcome
  | assign (value : CStr) : match_outcome
  | fail : match_outcome
deriving DecidableEq, Repr

/-- The statement guarded by `strcasecmp (rest, tok) == 0` in `matchitem1`
and `matchitem2`, with `tok` the token after its first character:
`tok += strlen (rest); skipspace (tok); if (*tok != '=') goto __fail;
else dst = strdup (tok + 1);`. -/
def matchitem_body (rest tok : CStr) : match_outcome :=
  match skipspace (tok.drop rest.length) with
  | [] => match_outcome.fail
  | c :: value => if c = '=' then match_outcome.assign value else match_outcome.fail

/-- The macro `matchitem1 (tok, first, rest, dst)` after its `case first:`
label; `tok` is the token after its first character (the `++tok`). -/
def matchitem1 (rest tok : CStr) : match_outcome :=
  if strcasecmp rest tok = 0 then matchitem_body rest tok
  else match_outcome.skip

/-- The macro `matchitem2 (tok, first, rest1, dst1, rest2, dst2)` after its
`case first:` label. The result says which destination is concerned:
`Sum.inl` for `dst1`, `Sum.inr` for `dst2`. -/
def matchitem2 (rest1 rest2 tok : CStr) : match_outcome ⊕ match_outcome :=
  if strcasecmp rest1 tok = 0 then Sum.inl (matchitem_body rest1 tok)
  else if strcasecmp rest2 tok = 0 then Sum.inr (matchitem_body rest2 tok)
  else Sum.inr match_outcome.skip

/-- The variables the token loop of `dbURIInfo_parse` works on: the record
behind `info`, the local `tmp`, and `errno`. -/
structure parse_state where
  info : dbURIInfo_t
  tmp : Option CStr
  errno : Int
deriving DecidableEq, Repr

/-- The statements of `case 'c':` that follow the `matchitem1`:
`if (tmp != NULL) { info->conn_timeout = strtol (tmp, NULL, 10);
if (errno == ERANGE || errno == EINVAL) info->conn_timeout = 30; ... }`.
(`tmp` is released but keeps its value.) -/
def conn_timeout_update (st : parse_state) : parse_state :=
  match st.tmp with
  | none => st
  | some t =>
    let r := strtol t
    let errno := if r.erange then ERANGE else st.errno
    let v := if errno = ERANGE ∨ errno = EINVAL then SQLPROBE_DEFAULT_CONNTIMEOUT else r.val
    { st with info := { st.info with conn_timeout := v }, errno := errno }

/-- One turn of the token loop: the `switch (tolower (*tok))` applied to one
token. The boolean is `false` when the turn leaves through `goto __fail`. -/
def parse_token (st : parse_state) (tok : CStr) : Bool × parse_state :=
  match tok with
  | [] => (true, st)
  | c :: t =>
    if tolower c = 's' then
      match matchitem1 "erver".toList t with
      | match_outcome.skip => (true, st)
      | match_outcome.fail => (false, st)
      | match_outcome.assign v => (true, { st with info := { st.info with host := some v } })
    else if tolower c = 'p' then
      match matchitem2 "ort".toList "wd".toList t with
      | Sum.inl match_outcome.skip => (true, st)
      | Sum.inl match_outcome.fail => (false, st)
      | Sum.inl (match_outcome.assign v) =>
        (true, { st with info := { st.info with port := some v } })
      | Sum.inr match_outcome.skip => (true, st)
      | Sum.inr match_outcome.fail => (false, st)
      | Sum.inr (match_outcome.assign v) =>
        (true, { st with info := { st.info with pass := some v } })
    else if tolower c = 'd' then
      match matchitem1 "atabase".toList t with
      | match_outcome.skip => (true, st)
      | match_outcome.fail => (false, st)
      | match_outcome.assign v => (true, { st with info := { st.info with db := some v } })
    else if tolower c = 'u' then
      match matchitem1 "id".toList t with
      | match_outcome.skip => (true, st)
      | match_outcome.fail => (false, st)
      | match_outcome.assign v => (true, { st with info := { st.info with user := some v } })
    else if tolower c = 'c' then
      match matchitem1 "onnecttimeout".toList t with
      | match_outcome.skip => (true, conn_timeout_update st)
      | match_outcome.fail => (false, st)
      | match_outcome.assign v => (true, conn_timeout_update { st with tmp := some v })
    else (true, st)

/-- How a call of `dbURIInfo_parse` ends: it returns a value, or the process
is aborted inside it. -/
inductive parse_exit where
  | returned (ret : Int) : parse_exit
  | aborted : parse_exit
deriving DecidableEq, Repr

/-- The call `strsep (&copy, ";")` on a `copy` that is not `NULL`: the token
it returns and the new value of `copy`, which is `NULL` (`none`) when no `;`
was left in the string and else points behind the first `;`. -/
def strsep : CStr → CStr × Option CStr
  | [] => ([], none)
  | c :: s => if c = ';' then ([], some s) else (c :: (strsep s).1, (strsep s).2)

/-- The loop `while ((tok = strsep (&copy, ";")) != NULL) { switch ... }`
over the tokens still to come, with the way the call ends. After the last
token `copy` is `NULL`; while tokens remain it points into the block that
`strdup` returned, behind the current token. At the regular end the call
runs `oscap_free (copy)` on `NULL` and returns 0. At `__fail` it runs
`oscap_free (copy)` too: when the failing token is the last one, `copy` is
`NULL` and the call returns -1; when tokens remain, `copy` is not a pointer
that `free` accepts and the process is aborted. -/
def parse_loop : List CStr → parse_state → parse_exit × parse_state
  | [], st => (parse_exit.returned 0, st)
  | tok :: rest, st =>
    match parse_token st tok with
    | (true, st1) => parse_loop rest st1
    | (false, st1) =>
      match rest with
      | [] => (parse_exit.returned (-1), st1)
      | _ :: _ => (parse_exit.aborted, st1)

/-- The function `dbURIInfo_parse (info, conn)`: the way the call ends and
the record behind `info` at that point. `errno` is the value of `errno` on
entry. -/
def dbURIInfo_parse (info : dbURIInfo_t) (conn : CStr) (errno : Int) :
    parse_exit × dbURIInfo_t :=
  let r := parse_loop (strsep_all conn) ⟨info, none, errno⟩
  (r.1, r.2.info)

/-- The initial value of `uriInfo` in `dbSQL_eval`: the designated
initialiser sets the five strings to `NULL` and leaves `conn_timeout` to be
zero-initialised. -/
def uriInfo_init : dbURIInfo_t :=
  ⟨none, none, none, none, none, 0⟩

/-! ## The engine table and its lookup -/

/-- The record `dbEngineMap_t`: the engine name of the OVAL object and the
name of the backend, `NULL` (`none`) when there is none. -/
structure dbEngineMap_t where
  o_engine : CStr
  b_engine : Option CStr
deriving DecidableEq, Repr

/-- The table `engine_map`, in the order of the source. -/
def engine_map : List dbEngineMap_t :=
  [ ⟨"access".toList, none⟩,
    ⟨"db2".toList, none⟩,
    ⟨"cache".toList, none⟩,
    ⟨"firebird".toList, some "firebird".toList⟩,
    ⟨"firstsql".toList, none⟩,
    ⟨"foxpro".toList, none⟩,
    ⟨"informix".toList, none⟩,
    ⟨"ingres".toList, none⟩,
    ⟨"interbase".toList, none⟩,
    ⟨"lightbase".toList, none⟩,
    ⟨"maxdb".toList, none⟩,
    ⟨"monetdb".toList, none⟩,
    ⟨"mimer".toList, none⟩,
    ⟨"mssql".toList, some "mssql".toList⟩,
    ⟨"mysql".toList, some "mysql".toList⟩,
    ⟨"oracle".toList, some "oracle".toList⟩,
    ⟨"paradox".toList, none⟩,
    ⟨"pervasive".toList, none⟩,
    ⟨"postgre".toList, some "pgsql".toList⟩,
    ⟨"sqlbase".toList, none⟩,
    ⟨"sqlite".toList, some "sqlite".toList⟩,
    ⟨"sqlite3".toList, some "sqlite3".toList⟩,
    ⟨"sqlserver".toList, none⟩,
    ⟨"sybase".toList, some "sybase".toList⟩ ]

/-- The macro `ENGINE_MAP_COUNT`. -/
def ENGINE_MAP_COUNT : Nat := engine_map.length

/-- What a `void *` argument of the comparison function points to: the
characters of an engine name, or an entry of the table. -/
inductive cmp_arg where
  | name (s : CStr) : cmp_arg
  | entry (e : dbEngineMap_t) : cmp_arg
deriving DecidableEq, Repr

/-- The function `engine_cmp (a, b)`, `strcmp (a->o_engine, b->o_engine)`:
both arguments are taken for pointers to `dbEngineMap_t`. For an argument
that points to the characters of a name, reading `o_engine` takes the first
bytes of the name for a pointer to a string, which they are not, and the
comparison faults (`none`). -/
def engine_cmp (a b : cmp_arg) : Option Int :=
  match a, b with
  | cmp_arg.entry ea, cmp_arg.entry eb => some (strcmp ea.o_engine eb.o_engine)
  | _, _ => none

/-- What a call of `oscap_bfind` gives: a fault inside the comparison
function, `NULL`, or a pointer to an entry. -/
inductive bfind_result (α : Type) where
  | fault : bfind_result α
  | null : bfind_result α
  | found (e : α) : bfind_result α
deriving DecidableEq, Repr

/-- Modelled from the spec: `oscap_bfind` (declared in `common/bfind.h`) is
not among the sources; the spec describes the lookup as a binary search of
the table for an exact match. This is the loop of that search on the window
of `w` entries that starts at index `s`: the key and the middle entry
`s + w / 2` are handed to the comparison function, and the window is halved
towards the key. `fuel` bounds the number of turns; `w` turns always
suffice. -/
def bfind_loop {α κ : Type} (tbl : List α) (key : κ) (cmpfn : κ → α → Option Int) :
    Nat → Nat → Nat → bfind_result α
  | 0, _, _ => bfind_result.null
  | fuel + 1, s, w =>
    if w = 0 then bfind_result.null
    else
      match tbl.get? (s + w / 2) with
      | none => bfind_result.fault
      | some e =>
        match cmpfn key e with
        | none => bfind_result.fault
        | some cmp =>
          if cmp > 0 then bfind_loop tbl key cmpfn fuel (s + w / 2 + 1) (w - w / 2 - 1)
          else if cmp < 0 then bfind_loop tbl key cmpfn fuel s (w / 2)
          else bfind_result.found e

/-- Modelled from the spec: `oscap_bfind (ptr, nmemb, size, key, cmpfn)`,
the binary search over the `nmemb` entries of a table. -/
def oscap_bfind {α κ : Type} (tbl : List α) (nmemb : Nat) (key : κ)
    (cmpfn : κ → α → Option Int) : bfind_result α :=
  bfind_loop tbl key cmpfn nmemb 0 nmemb

/-- The outcomes of the engine lookup of `dbSQL_eval`: the three that the
code distinguishes, and the fault inside the lookup. -/
inductive engine_lookup where
  | fault : engine_lookup
  | not_found : engine_lookup
  | not_supported : engine_lookup
  | backend (b_engine : CStr) : engine_lookup
deriving DecidableEq, Repr

/-- The engine lookup of `dbSQL_eval`:
`oscap_bfind (engine_map, ENGINE_MAP_COUNT, sizeof (dbEngineMap_t),
(char *) engine, &engine_cmp)`, with `sql_dbe == NULL` giving "DB engine not
found" and `sql_dbe->b_engine == NULL` giving "DB engine not supported". The
key handed to the search is the pointer to the characters of the name. -/
def engine_resolve (engine : CStr) : engine_lookup :=
  match oscap_bfind engine_map ENGINE_MAP_COUNT (cmp_arg.name engine)
      (fun key e => engine_cmp key (cmp_arg.entry e)) with
  | bfind_result.fault => engine_lookup.fault
  | bfind_result.null => engine_lookup.not_found
  | bfind_result.found sql_dbe =>
    match sql_dbe.b_engine with
    | none => engine_lookup.not_supported
    | some b => engine_lookup.backend b

/-! ## The scrubber -/

/-- The store `p[l] = v` through a `uint32_t *`: the four bytes of the word
with index `l` (little-endian byte order). -/
def store_word (mem : List Nat) (l v : Nat) : List Nat :=
  (((mem.set (4 * l) (v % 256)).set (4 * l + 1) (v / 256 % 256)).set
    (4 * l + 2) (v / 65536 % 256)).set (4 * l + 3) (v / 16777216 % 256)

/-- The first loop of `__clearmem`, `while (l >= 0) { p[l] = random (); --l; }`,
with `n = l + 1` words still to be written. `rnd k` is the value of the
`k`-th call of `random ()`; the state is the memory and the number of calls
made so far. -/
def clear_words (rnd : Nat → Nat) : Nat → List Nat × Nat → List Nat × Nat
  | 0, st => st
  | l + 1, (mem, k) => clear_words rnd l (store_word mem l (rnd k % 2 ^ 32), k + 1)

/-- The second block of `__clearmem`: `l = len % 4` and the `switch (l)`
whose cases fall through, writing `p[2]`, `p[1]`, `p[0]` through the byte
pointer `p = (uint8_t *) ptr`. -/
def clear_tail (rnd : Nat → Nat) (len : Nat) (st : List Nat × Nat) : List Nat × Nat :=
  let l := len % 4
  let st3 := if l = 3 then (st.1.set 2 (rnd st.2 % 256), st.2 + 1) else st
  let st2 := if l = 3 ∨ l = 2 then (st3.1.set 1 (rnd st3.2 % 256), st3.2 + 1) else st3
  if l = 3 ∨ l = 2 ∨ l = 1 then (st2.1.set 0 (rnd st2.2 % 256), st2.2 + 1) else st2

/-- The function `__clearmem (ptr, len)` on the bytes that `ptr` points to
(`none` for `NULL`): the bytes afterwards and the number of `random ()`
calls made, starting from call number `k`. -/
def __clearmem (rnd : Nat → Nat) (ptr : Option (List Nat)) (len : Nat) (k : Nat) :
    Option (List Nat) × Nat :=
  match ptr with
  | none => (none, k)
  | some mem =>
    let r := clear_tail rnd len (clear_words rnd (len / 4) (mem, k))
    (some r.1, r.2)

/-- One call `__clearmem (s, strlen (s))` made by `dbURIInfo_clear`. -/
structure clearmem_call where
  buf : CStr
  len : Nat
deriving DecidableEq, Repr

/-- The scrub-and-release statement of `dbURIInfo_clear` for one field:
`if (f != NULL) { __clearmem (f, strlen (f)); oscap_free (f); }`. -/
def clear_field (f : Option CStr) : List clearmem_call :=
  match f with
  | none => []
  | some s => [⟨s, s.length⟩]

/-- The function `dbURIInfo_clear (ui)`: the `__clearmem` calls it makes, in
order (host, user, pass, db), and the record afterwards. -/
def dbURIInfo_clear (ui : dbURIInfo_t) : List clearmem_call × dbURIInfo_t :=
  (clear_field ui.host ++ clear_field ui.user ++ clear_field ui.pass ++ clear_field ui.db,
   { ui with host := none, port := none, user := none, pass := none, db := none })

/-! ## The backend, rows and the items of the probe -/

/-- The column types of the backend library that the `switch` of
`dbSQL_eval` names, and `OTHER` for every other type code of
`enum odbxtype`. -/
inductive odbx_type where
  | BOOLEAN : odbx_type
  | INTEGER : odbx_type
  | SMALLINT : odbx_type
  | REAL : odbx_type
  | DOUBLE : odbx_type
  | FLOAT : odbx_type
  | CHAR : odbx_type
  | NCHAR : odbx_type
  | VARCHAR : odbx_type
  | TIMESTAMP : odbx_type
  | OTHER (code : Nat) : odbx_type
deriving DecidableEq, Repr

/-- One column of the current row: what `odbx_column_name`,
`odbx_column_type` and `odbx_field_value` return for its index. The value is
taken to be a string (not `NULL`). -/
structure column where
  name : CStr
  type : odbx_type
  value : CStr
deriving DecidableEq, Repr

/-- A row, given by its columns in index order; `odbx_column_count` is the
length. -/
abbrev row := List column

/-- The return value `ODBX_ERR_SUCCESS` of the backend library. -/
def ODBX_ERR_SUCCESS : Int := 0

/-- The return value `ODBX_RES_ROWS` of `odbx_result`. -/
def ODBX_RES_ROWS : Int := 3

/-- The return value `ODBX_ROW_NEXT` of `odbx_row_fetch`. -/
def ODBX_ROW_NEXT : Int := 1

/-- A result set as `odbx_row_fetch` delivers it: the return value of each
successive call, with the row that the call makes current. Once the list is
used up the backend reports the end of the rows. -/
abbrev odbx_result_t := List (Int × row)

/-- The behaviour of the backend library in one run: the return values of
`odbx_init`, `odbx_bind`, `odbx_query` and `odbx_finish`, and for each
successive call of `odbx_result` its return value with the result set it
delivers. Once that list is used up the backend reports that it is done. -/
structure odbx_backend where
  init : Int
  bind : Int
  query : Int
  results : List (Int × odbx_result_t)
  finish : Int
deriving DecidableEq, Repr

/-- The calls of the backend library that act on the connection handle or
release a result set, as `dbSQL_eval` makes them. -/
inductive odbx_call where
  | init (backend : CStr) (host port : Option CStr) : odbx_call
  | bind (db user pass : Option CStr) : odbx_call
  | query (sql : CStr) : odbx_call
  | result_finish : odbx_call
  | finish : odbx_call
deriving DecidableEq, Repr

/-- The messages `dbSQL_eval` hands to the diagnostic macro `dE`. -/
inductive diag where
  | malformed_connection_string (conn : CStr) : diag
  | engine_not_found (engine : CStr) : diag
  | engine_not_supported (engine : CStr) : diag
  | init_failed (backend : CStr) (host port : Option CStr) : diag
  | bind_failed (db user pass : Option CStr) : diag
  | query_failed (sql : CStr) : diag
  | strtol_failed (value : CStr) : diag
  | strtod_failed (value : CStr) : diag
  | finish_failed : diag
deriving DecidableEq, Repr

/-- The libc floating-point conversion the probe relies on, over a type `F`
of `double` values: `strtod` gives the value and the number of characters
consumed (`end - col_val`), `is_zero` is the test `val == 0`. -/
structure fp_env (F : Type) where
  strtod : CStr → F × Nat
  is_zero : F → Bool

/-- The OVAL datatypes that `dbSQL_eval` uses. -/
inductive oval_datatype_t where
  | OVAL_DATATYPE_UNKNOWN : oval_datatype_t
  | OVAL_DATATYPE_INTEGER : oval_datatype_t
  | OVAL_DATATYPE_FLOAT : oval_datatype_t
  | OVAL_DATATYPE_STRING : oval_datatype_t
  | OVAL_DATATYPE_RECORD : oval_datatype_t
deriving DecidableEq, Repr

/-- Modelled from the spec: the values built by `SEXP_number_newi_r`,
`SEXP_number_newf_r` and `SEXP_string_new_r` (SEAP library, not among the
sources): an integer, a floating-point number or a string. -/
inductive sexp_value (F : Type) where
  | number_i (v : Int) : sexp_value F
  | number_f (v : F) : sexp_value F
  | string (s : CStr) : sexp_value F
deriving DecidableEq, Repr

/-- Modelled from the spec: a `field` entity as `probe_ent_creat1`,
`probe_ent_setdatatype` and `probe_ent_attr_add` (probe API, not among the
sources) build it: a value, a datatype and the `name` attribute. -/
structure field (F : Type) where
  name : CStr
  datatype : oval_datatype_t
  value : sexp_value F
deriving DecidableEq, Repr

/-- Modelled from the spec: a `result` entity of datatype record with the
fields added to it by `SEXP_list_add`, in order. -/
structure result_record (F : Type) where
  datatype : oval_datatype_t
  fields : List (field F)
deriving DecidableEq, Repr

/-- Modelled from the spec: the item `probe_item_create` builds for
`OVAL_INDEPENDENT_SQL57`, with its four string entities and the `result`
entities added to it by `SEXP_list_add`, in order. -/
structure item (F : Type) where
  engine : CStr
  version : CStr
  sql : CStr
  connection_string : CStr
  results : List (result_record F)
deriving DecidableEq, Repr

/-- The `switch (odbx_column_type (sql_dbr, ci))` of the column loop for one
column: the field created (`none` while `field` stays `NULL`) together with
`col_type`, and the diagnostics emitted. -/
def column_switch {F : Type} (fp : fp_env F) (col : column) :
    Option (sexp_value F) × oval_datatype_t × List diag :=
  let integer_case : Option (sexp_value F) × oval_datatype_t × List diag :=
    let r := strtol col.value
    let val := long_to_int r.val
    (some (sexp_value.number_i val), oval_datatype_t.OVAL_DATATYPE_INTEGER,
      if val = 0 ∧ r.consumed = 0 then [diag.strtol_failed col.value] else [])
  let float_case : Option (sexp_value F) × oval_datatype_t × List diag :=
    let r := fp.strtod col.value
    (some (sexp_value.number_f r.1), oval_datatype_t.OVAL_DATATYPE_FLOAT,
      if fp.is_zero r.1 = true ∧ r.2 = 0 then [diag.strtod_failed col.value] else [])
  let string_case : Option (sexp_value F) × oval_datatype_t × List diag :=
    (some (sexp_value.string col.value), oval_datatype_t.OVAL_DATATYPE_STRING, [])
  match col.type with
  | odbx_type.BOOLEAN => (none, oval_datatype_t.OVAL_DATATYPE_UNKNOWN, [])
  | odbx_type.INTEGER => integer_case
  | odbx_type.SMALLINT => integer_case
  | odbx_type.REAL => float_case
  | odbx_type.DOUBLE => float_case
  | odbx_type.FLOAT => float_case
  | odbx_type.CHAR => string_case
  | odbx_type.NCHAR => string_case
  | odbx_type.VARCHAR => string_case
  | odbx_type.TIMESTAMP => (none, oval_datatype_t.OVAL_DATATYPE_UNKNOWN, [])
  | odbx_type.OTHER _ => (none, oval_datatype_t.OVAL_DATATYPE_UNKNOWN, [])

/-- One turn of the column loop `for (ci = 0; ci < odbx_column_count; ++ci)`:
the `switch`, then `if (field != NULL)` the datatype and the name are set
and the field is added at the end of `result`. The state is the `result`
entity and the diagnostics so far. -/
def column_step {F : Type} (fp : fp_env F) (st : result_record F × List diag) (col : column) :
    result_record F × List diag :=
  match column_switch fp col with
  | (none, _, ds) => (st.1, st.2 ++ ds)
  | (some v, col_type, ds) =>
    ({ st.1 with fields := st.1.fields ++ [⟨col.name, col_type, v⟩] }, st.2 ++ ds)

/-- The body of the row loop for one fetched row: `result` is created as an
empty record, the column loop runs over the columns of the row. -/
def row_result {F : Type} (fp : fp_env F) (r : row) : result_record F × List diag :=
  r.foldl (column_step fp) (⟨oval_datatype_t.OVAL_DATATYPE_RECORD, []⟩, [])

/-- The loop `while (odbx_row_fetch (sql_dbr) == ODBX_ROW_NEXT)` over the
fetch outcomes still to come; each fetched row adds its `result` to the
item. -/
def row_loop {F : Type} (fp : fp_env F) :
    odbx_result_t → item F × List diag → item F × List diag
  | [], st => st
  | (rc, r) :: rest, st =>
    if rc = ODBX_ROW_NEXT then
      let res := row_result fp r
      row_loop fp rest ({ st.1 with results := st.1.results ++ [res.1] }, st.2 ++ res.2)
    else st

/-- The state of the result loop: the item, the diagnostics and the backend
calls so far. -/
structure drain_state (F : Type) where
  itm : item F
  log : List diag
  calls : List odbx_call

/-- The loop `while ((sql_err = odbx_result (...)) == ODBX_RES_ROWS)` over
the outcomes of `odbx_result` still to come: the row loop, then
`odbx_result_finish`. -/
def result_loop {F : Type} (fp : fp_env F) :
    List (Int × odbx_result_t) → drain_state F → drain_state F
  | [], st => st
  | (sql_err, sql_dbr) :: rest, st =>
    if sql_err = ODBX_RES_ROWS then
      let r := row_loop fp sql_dbr (st.itm, st.log)
      result_loop fp rest ⟨r.1, r.2, st.calls ++ [odbx_call.result_finish]⟩
    else st

/-! ## The evaluation routine -/

/-- What a call of `dbSQL_eval` leaves behind when it returns: the value
returned, the collection behind `probe_out`, the diagnostics, the backend
calls made, and `uriInfo` with the `__clearmem` calls of the final
`dbURIInfo_clear`. -/
structure eval_result (F : Type) where
  err : Int
  probe_out : List (item F)
  log : List diag
  calls : List odbx_call
  uriInfo : dbURIInfo_t
  scrubbed : List clearmem_call
deriving DecidableEq, Repr

/-- The label `__exit` of `dbSQL_eval`: `dbURIInfo_clear (&uriInfo);
return (err);`. -/
def eval_exit {F : Type} (err : Int) (probe_out : List (item F)) (log : List diag)
    (calls : List odbx_call) (uriInfo : dbURIInfo_t) : eval_result F :=
  let c := dbURIInfo_clear uriInfo
  ⟨err, probe_out, log, calls, c.2, c.1⟩

/-- Modelled from the spec: `probe_cobj_add_item` (probe API, not among the
sources) adds the item at the end of the output collection. -/
def probe_cobj_add_item {F : Type} (probe_out : List (item F)) (itm : item F) : List (item F) :=
  probe_out ++ [itm]

/-- The statements of `dbSQL_eval` that follow the engine lookup, from
`odbx_init` to `__exit`, for an entry `sql_dbe` whose `b_engine` is `b`, run
against the backend behaviour `be`. `err` is still `-1` and becomes `0` only
on the path that reaches `err = 0`. -/
def eval_backend {F : Type} (fp : fp_env F) (be : odbx_backend) (uriInfo : dbURIInfo_t)
    (b engine version conn sql : CStr) (probe_out : List (item F)) : eval_result F :=
  let c_init := [odbx_call.init b uriInfo.host uriInfo.port]
  if be.init ≠ ODBX_ERR_SUCCESS then
    eval_exit (-1) probe_out [diag.init_failed b uriInfo.host uriInfo.port] c_init uriInfo
  else
    let c_bind := c_init ++ [odbx_call.bind uriInfo.db uriInfo.user uriInfo.pass]
    if be.bind ≠ ODBX_ERR_SUCCESS then
      eval_exit (-1) probe_out [diag.bind_failed uriInfo.db uriInfo.user uriInfo.pass]
        c_bind uriInfo
    else
      let c_query := c_bind ++ [odbx_call.query sql]
      if be.query ≠ ODBX_ERR_SUCCESS then
        eval_exit (-1) probe_out [diag.query_failed sql]
          (c_query ++ [odbx_call.finish]) uriInfo
      else
        let d := result_loop fp be.results ⟨⟨engine, version, sql, conn, []⟩, [], c_query⟩
        let out := probe_cobj_add_item probe_out d.itm
        if be.finish ≠ ODBX_ERR_SUCCESS then
          eval_exit (-1) out (d.log ++ [diag.finish_failed])
            (d.calls ++ [odbx_call.finish]) uriInfo
        else
          eval_exit 0 out d.log (d.calls ++ [odbx_call.finish]) uriInfo

/-- The function `dbSQL_eval (engine, version, conn, sql, probe_out)`, run
against the backend behaviour `be`, with `errno` the value of `errno` on
entry and `probe_out` the output collection on entry. The result is `none`
when the call does not return: the process is aborted in `dbURIInfo_parse`
or faults in the engine lookup. -/
def dbSQL_eval {F : Type} (fp : fp_env F) (be : odbx_backend) (errno : Int)
    (engine version conn sql : CStr) (probe_out : List (item F)) : Option (eval_result F) :=
  let p := dbURIInfo_parse uriInfo_init conn errno
  let uriInfo := p.2
  match p.1 with
  | parse_exit.aborted => none
  | parse_exit.returned ret =>
    if ret ≠ 0 then
      some (eval_exit (-1) probe_out [diag.malformed_connection_string conn] [] uriInfo)
    else
      match engine_resolve engine with
      | engine_lookup.fault => none
      | engine_lookup.not_found =>
        some (eval_exit (-1) probe_out [diag.engine_not_found engine] [] uriInfo)
      | engine_lookup.not_supported =>
        some (eval_exit (-1) probe_out [diag.engine_not_supported engine] [] uriInfo)
      | engine_lookup.backend b =>
        some (eval_backend fp be uriInfo b engine version conn sql probe_out)

/-- A floating-point environment over the one-point type, for runs in which
the values of floating-point columns play no part. -/
def fp_unit : fp_env Unit :=
  ⟨fun _ => ((), 0), fun _ => true⟩

/-! ## Notions used to state the properties -/

/-- A list of characters is a C string when it holds no NUL character. -/
def is_cstr (s : CStr) : Prop :=
  ∀ c ∈ s, c.toNat ≠ 0

instance (s : CStr) : Decidable (is_cstr s) := by
  unfold is_cstr; infer_instance

/-- The six key aliases of the connection string, in lower case. -/
def known_aliases : List CStr :=
  ["server".toList, "port".toList, "pwd".toList, "database".toList, "uid".toList,
   "connecttimeout".toList]

/-- The key of a token `<key><optional whitespace>=<value>`: the text before
the first `=`, without the white space that ends it (the whole token when it
has no `=`). -/
def token_key (tok : CStr) : CStr :=
  ((tok.takeWhile (fun c => c ≠ '=')).reverse.dropWhile isspace).reverse

/-- The key of the token is, up to letter case, one of the six aliases. -/
def has_known_key (tok : CStr) : Prop :=
  (token_key tok).map tolower ∈ known_aliases

instance (tok : CStr) : Decidable (has_known_key tok) := by
  unfold has_known_key; infer_instance

/-- The token is, up to letter case, exactly one of the six aliases, with
nothing after it. -/
def bare_alias (tok : CStr) : Prop :=
  tok.map tolower ∈ known_aliases

instance (tok : CStr) : Decidable (bare_alias tok) := by
  unfold bare_alias; infer_instance

/-- How `dbURIInfo_parse` ends on a list of tokens of which the first bare
alias, if there is one, starts the list given here: with 0 when there is
none, with -1 when it is the last token, and aborted when tokens follow
it. -/
def exit_at_first_bare_alias : List CStr → parse_exit
  | [] => parse_exit.returned 0
  | [_] => parse_exit.returned (-1)
  | _ :: _ :: _ => parse_exit.aborted

/-- The bytes of a C string, as `__clearmem` sees them. -/
def cstr_bytes (s : CStr) : List Nat :=
  s.map Char.toNat

/-- The abstract type that goes with a backend column type: Integer for
integer and smallint, Float for real, double and float, String for char,
nchar and varchar, none for every other type. -/
def abstract_tag : odbx_type → Option oval_datatype_t
  | odbx_type.INTEGER => some oval_datatype_t.OVAL_DATATYPE_INTEGER
  | odbx_type.SMALLINT => some oval_datatype_t.OVAL_DATATYPE_INTEGER
  | odbx_type.REAL => some oval_datatype_t.OVAL_DATATYPE_FLOAT
  | odbx_type.DOUBLE => some oval_datatype_t.OVAL_DATATYPE_FLOAT
  | odbx_type.FLOAT => some oval_datatype_t.OVAL_DATATYPE_FLOAT
  | odbx_type.CHAR => some oval_datatype_t.OVAL_DATATYPE_STRING
  | odbx_type.NCHAR => some oval_datatype_t.OVAL_DATATYPE_STRING
  | odbx_type.VARCHAR => some oval_datatype_t.OVAL_DATATYPE_STRING
  | odbx_type.BOOLEAN => none
  | odbx_type.TIMESTAMP => none
  | odbx_type.OTHER _ => none

/-- The field that one column contributes to the record of its row, if it
contributes one: the outcome of the `switch` with the name of the column. -/
def column_field {F : Type} (fp : fp_env F) (col : column) : Option (field F) :=
  match column_switch fp col with
  | (none, _, _) => none
  | (some v, col_type, _) => some ⟨col.name, col_type, v⟩

/-- The rows fetched from one result set: those delivered before the first
call of `odbx_row_fetch` that does not return `ODBX_ROW_NEXT`. -/
def fetched_of_set (rs : odbx_result_t) : List row :=
  (rs.takeWhile (fun x => decide (x.1 = ODBX_ROW_NEXT))).map (fun x => x.2)

/-- The rows fetched over all result sets, in fetch order: the rows of the
result sets delivered before the first call of `odbx_result` that does not
return `ODBX_RES_ROWS`. -/
def fetched_rows : List (Int × odbx_result_t) → List row
  | [] => []
  | (rc, rs) :: rest =>
    if rc = ODBX_RES_ROWS then fetched_of_set rs ++ fetched_rows rest else []

/-- The table is in strictly ascending order of `o_engine` under `strcmp`:
each entry is smaller than the one that follows it. -/
def engine_map_sorted (tbl : List dbEngineMap_t) : Prop :=
  ∀ p ∈ tbl.zip tbl.tail, strcmp p.1.o_engine p.2.o_engine < 0

instance (tbl : List dbEngineMap_t) : Decidable (engine_map_sorted tbl) := by
  unfold engine_map_sorted; infer_instance

/-- The number that a run of decimal digits denotes: each digit counts with
the power of ten of its place. -/
def digits_denote : List Char → Nat
  | [] => 0
  | d :: ds => (d.toNat - 48) * 10 ^ ds.length + digits_denote ds

/-- The integer that a text denotes when it is an optionally signed base-10
numeral: an optional `-` or `+` followed by one decimal digit or more and
nothing else. Other texts denote nothing. -/
def numeral_denotes (s : CStr) : Option Int :=
  match s with
  | [] => none
  | c :: rest =>
    if c.toNat = 45 then
      if rest ≠ [] ∧ rest.all isdigit = true then some (-(digits_denote rest : Int)) else none
    else if c.toNat = 43 then
      if rest ≠ [] ∧ rest.all isdigit = true then some (digits_denote rest : Int) else none
    else if (c :: rest).all isdigit = true then some (digits_denote (c :: rest) : Int)
    else none

/-! ## Characters and string comparison -/

theorem toNat_ofNat_small (n : Nat) (h : n < 55296) : (Char.ofNat n).toNat = n := by
  have hv : n.isValidChar := Or.inl h
  unfold Char.ofNat
  rw [dif_pos hv]
  rfl

theorem char_eq_of_toNat_eq {a b : Char} (h : a.toNat = b.toNat) : a = b := by
  rw [← Char.ofNat_toNat a, ← Char.ofNat_toNat b, h]

theorem tolower_toNat (c : Char) :
    (tolower c).toNat = if 65 ≤ c.toNat ∧ c.toNat ≤ 90 then c.toNat + 32 else c.toNat := by
  unfold tolower
  split
  · next h => exact toNat_ofNat_small _ (by omega)
  · rfl

theorem tolower_toNat_eq_zero {c : Char} (h : (tolower c).toNat = 0) : c.toNat = 0 := by
  rw [tolower_toNat] at h
  split at h <;> omega

/-- A character that `tolower` maps to a lower-case letter is a letter. -/
theorem letter_of_tolower_lower {c : Char}
    (h : 97 ≤ (tolower c).toNat ∧ (tolower c).toNat ≤ 122) :
    (65 ≤ c.toNat ∧ c.toNat ≤ 90) ∨ (97 ≤ c.toNat ∧ c.toNat ≤ 122) := by
  rw [tolower_toNat] at h
  split at h <;> omega

theorem strcasecmp_eq_zero_of_map_eq :
    ∀ (a b : CStr), a.map tolower = b.map tolower → strcasecmp a b = 0
  | [], [], _ => by simp [strcasecmp]
  | [], _ :: _, h => by simp at h
  | _ :: _, [], h => by simp at h
  | a :: as, b :: bs, h => by
    simp only [List.map_cons, List.cons.injEq] at h
    simp only [strcasecmp, h.1, if_true]
    exact strcasecmp_eq_zero_of_map_eq as bs h.2

theorem map_eq_of_strcasecmp_eq_zero :
    ∀ (a b : CStr), is_cstr a → is_cstr b → strcasecmp a b = 0 →
      a.map tolower = b.map tolower
  | [], [], _, _, _ => rfl
  | [], b :: bs, _, hb, h => by
    simp only [strcasecmp] at h
    have h0 : (tolower b).toNat = 0 := by omega
    exact absurd (tolower_toNat_eq_zero h0) (hb b (List.mem_cons_self _ _))
  | a :: as, [], ha, _, h => by
    simp only [strcasecmp] at h
    have h0 : (tolower a).toNat = 0 := by omega
    exact absurd (tolower_toNat_eq_zero h0) (ha a (List.mem_cons_self _ _))
  | a :: as, b :: bs, ha, hb, h => by
    simp only [strcasecmp] at h
    split at h
    · next hab =>
      have ih := map_eq_of_strcasecmp_eq_zero as bs
        (fun c hc => ha c (List.mem_cons_of_mem _ hc))
        (fun c hc => hb c (List.mem_cons_of_mem _ hc)) h
      simp [hab, ih]
    · next hab =>
      exact absurd (char_eq_of_toNat_eq (by omega)) hab

/-- After a successful `strcasecmp (rest, tok) == 0` nothing of the token is
left behind the alias (or, in a list that is no C string, a NUL). -/
theorem drop_of_strcasecmp_eq_zero :
    ∀ (rest tok : CStr), strcasecmp rest tok = 0 →
      tok.drop rest.length = [] ∨ ∃ c tl, tok.drop rest.length = c :: tl ∧ c.toNat = 0
  | [], [], _ => Or.inl rfl
  | [], b :: bs, h => by
    simp only [strcasecmp] at h
    have h0 : (tolower b).toNat = 0 := by omega
    exact Or.inr ⟨b, bs, rfl, tolower_toNat_eq_zero h0⟩
  | _ :: _, [], _ => Or.inl rfl
  | a :: as, b :: bs, h => by
    simp only [strcasecmp] at h
    split at h
    · simpa using drop_of_strcasecmp_eq_zero as bs h
    · next hab => exact absurd (char_eq_of_toNat_eq (by omega)) hab

/-! ## The token loop of `dbURIInfo_parse` -/

/-- When the alias matches the whole rest of the token, the `=` test of the
macro body fails: the assignment is not reached. -/
theorem matchitem_body_of_strcasecmp_eq_zero (rest tok : CStr) (h : strcasecmp rest tok = 0) :
    matchitem_body rest tok = match_outcome.fail := by
  unfold matchitem_body
  rcases drop_of_strcasecmp_eq_zero rest tok h with h1 | ⟨c, tl, h1, hc⟩
  · rw [h1]; rfl
  · rw [h1]
    have hsp : isspace c = false := by simp [isspace, hc]
    have hne : c ≠ '=' := by
      intro he
      rw [he] at hc
      exact absurd hc (by decide)
    simp [skipspace, hsp, hne]

theorem matchitem1_eq (rest tok : CStr) :
    matchitem1 rest tok =
      if strcasecmp rest tok = 0 then match_outcome.fail else match_outcome.skip := by
  unfold matchitem1
  split
  · next h => exact matchitem_body_of_strcasecmp_eq_zero rest tok h
  · rfl

theorem matchitem2_eq (rest1 rest2 tok : CStr) :
    matchitem2 rest1 rest2 tok =
      if strcasecmp rest1 tok = 0 then Sum.inl match_outcome.fail
      else if strcasecmp rest2 tok = 0 then Sum.inr match_outcome.fail
      else Sum.inr match_outcome.skip := by
  unfold matchitem2
  split
  · next h => rw [matchitem_body_of_strcasecmp_eq_zero rest1 tok h]
  · split
    · next h => rw [matchitem_body_of_strcasecmp_eq_zero rest2 tok h]
    · rfl

theorem conn_timeout_update_of_tmp_none (st : parse_state) (h : st.tmp = none) :
    conn_timeout_update st = st := by
  unfold conn_timeout_update
  rw [h]

/-- A turn of the token loop leaves the state as it was as long as `tmp` is
`NULL`. -/
theorem parse_token_state (st : parse_state) (tok : CStr) (h : st.tmp = none) :
    (parse_token st tok).2 = st := by
  cases tok with
  | nil => rfl
  | cons c t =>
    unfold parse_token
    simp only [matchitem1_eq, matchitem2_eq]
    split_ifs <;> simp [conn_timeout_update_of_tmp_none st h]

theorem parse_token_eq (st : parse_state) (tok : CStr) (h : st.tmp = none) :
    parse_token st tok = ((parse_token st tok).1, st) := by
  conv_lhs => rw [← Prod.mk.eta (p := parse_token st tok), parse_token_state st tok h]

/-- A token that makes the loop leave through `__fail` is a bare alias. -/
theorem bare_alias_of_parse_token_fail (st : parse_state) (tok : CStr) (hc : is_cstr tok)
    (h : (parse_token st tok).1 = false) : bare_alias tok := by
  cases tok with
  | nil => simp [parse_token] at h
  | cons c t =>
    have ht : is_cstr t := fun x hx => hc x (List.mem_cons_of_mem _ hx)
    have key : ∀ (rest : CStr), is_cstr rest → strcasecmp rest t = 0 →
        (c :: t).map tolower = tolower c :: rest.map tolower := by
      intro rest hr h0
      simp [map_eq_of_strcasecmp_eq_zero rest t hr ht h0]
    unfold parse_token at h
    simp only [matchitem1_eq, matchitem2_eq] at h
    unfold bare_alias
    split_ifs at h with h1 h2 h3 h4 h5 h6 h7 h8 h9 h10 h11 <;> simp at h
    · rw [key _ (by decide) h2, h1]; decide
    · rw [key _ (by decide) h4, h3]; decide
    · rw [key _ (by decide) h5, h3]; decide
    · rw [key _ (by decide) h7, h6]; decide
    · rw [key _ (by decide) h9, h8]; decide
    · rw [key _ (by decide) h11, h10]; decide

theorem dropWhile_eq_self_of_forall {α : Type} (p : α → Bool) :
    ∀ (l : List α), (∀ x ∈ l, p x = false) → l.dropWhile p = l
  | [], _ => rfl
  | a :: l, h => by simp [List.dropWhile, h a (List.mem_cons_self _ _)]

/-- A bare alias is a token whose key is that alias. -/
theorem has_known_key_of_bare_alias (tok : CStr) (h : bare_alias tok) : has_known_key tok := by
  have hlow : ∀ a ∈ known_aliases, ∀ c ∈ a, 97 ≤ c.toNat ∧ c.toNat ≤ 122 := by decide
  have hletter : ∀ c ∈ tok, (65 ≤ c.toNat ∧ c.toNat ≤ 90) ∨ (97 ≤ c.toNat ∧ c.toNat ≤ 122) := by
    intro c hc
    exact letter_of_tolower_lower (hlow _ h _ (List.mem_map_of_mem tolower hc))
  have h1 : tok.takeWhile (fun c => c ≠ '=') = tok := by
    rw [List.takeWhile_eq_self_iff]
    intro c hc
    have := hletter c hc
    have : c ≠ '=' := by
      intro he
      rw [he] at this
      revert this
      decide
    simpa using this
  have h2 : tok.reverse.dropWhile isspace = tok.reverse := by
    apply dropWhile_eq_self_of_forall
    intro c hc
    have := hletter c (List.mem_reverse.mp hc)
    unfold isspace
    have e1 : ¬ c.toNat = 32 := by omega
    have e2 : ¬ c.toNat ≤ 13 := by omega
    simp [e1, e2]
  unfold has_known_key token_key
  rw [h1, h2, List.reverse_reverse]
  exact h

theorem parse_loop_state (toks : List CStr) (st : parse_state) (h : st.tmp = none) :
    (parse_loop toks st).2 = st := by
  induction toks with
  | nil => rfl
  | cons tok rest ih =>
    unfold parse_loop
    rw [parse_token_eq st tok h]
    cases (parse_token st tok).1 with
    | true => exact ih
    | false => cases rest <;> rfl

/-- The way the loop ends is decided by the first token that makes it leave
through `__fail` and by whether tokens follow that one. -/
theorem parse_loop_exit (toks : List CStr) (st : parse_state) (h : st.tmp = none) :
    (parse_loop toks st).1 =
      exit_at_first_bare_alias (toks.dropWhile (fun t => (parse_token st t).1)) := by
  induction toks with
  | nil => rfl
  | cons tok rest ih =>
    unfold parse_loop
    rw [parse_token_eq st tok h]
    cases hb : (parse_token st tok).1 with
    | true =>
      simp only [List.dropWhile_cons, hb, if_true]
      exact ih
    | false =>
      simp only [List.dropWhile_cons, hb]
      cases rest <;> rfl

theorem exit_at_first_bare_alias_cases (l : List CStr) :
    exit_at_first_bare_alias l = parse_exit.returned 0 ∨
    exit_at_first_bare_alias l = parse_exit.returned (-1) ∨
    exit_at_first_bare_alias l = parse_exit.aborted := by
  rcases l with _ | ⟨a, _ | ⟨b, l⟩⟩
  · exact Or.inl rfl
  · exact Or.inr (Or.inl rfl)
  · exact Or.inr (Or.inr rfl)

/-- `dbURIInfo_parse` ends in one of three ways, and in each of them the
record is as it was on entry. -/
theorem dbURIInfo_parse_cases (info : dbURIInfo_t) (conn : CStr) (errno : Int) :
    dbURIInfo_parse info conn errno = (parse_exit.returned 0, info) ∨
    dbURIInfo_parse info conn errno = (parse_exit.returned (-1), info) ∨
    dbURIInfo_parse info conn errno = (parse_exit.aborted, info) := by
  have h2 : (dbURIInfo_parse info conn errno).2 = info := by
    unfold dbURIInfo_parse
    simp only
    rw [parse_loop_state _ _ rfl]
  have h1 : (dbURIInfo_parse info conn errno).1 =
      exit_at_first_bare_alias ((strsep_all conn).dropWhile
        (fun t => (parse_token ⟨info, none, errno⟩ t).1)) := by
    unfold dbURIInfo_parse
    simp only
    exact parse_loop_exit _ _ rfl
  rcases exit_at_first_bare_alias_cases ((strsep_all conn).dropWhile
      (fun t => (parse_token ⟨info, none, errno⟩ t).1)) with h | h | h
  · exact Or.inl (Prod.ext (h1.trans h) h2)
  · exact Or.inr (Or.inl (Prod.ext (h1.trans h) h2))
  · exact Or.inr (Or.inr (Prod.ext (h1.trans h) h2))

/-- The tokens of the loop, one call of `strsep` at a time: the first token
is the one `strsep` returns, and tokens remain exactly when `strsep` leaves
`copy` different from `NULL`. -/
theorem strsep_all_eq_strsep (s : CStr) :
    strsep_all s = (strsep s).1 ::
      (match (strsep s).2 with
       | none => []
       | some r => strsep_all r) := by
  induction s with
  | nil => rfl
  | cons c s ih =>
    rw [strsep_all, strsep]
    by_cases hc : c = ';'
    · simp [hc]
    · simp only [hc, if_false]
      rw [ih]

/-! ## Tokens of a connection string -/

theorem strsep_all_ne_nil (s : CStr) : strsep_all s ≠ [] := by
  induction s with
  | nil => simp [strsep_all]
  | cons c s ih =>
    unfold strsep_all
    split
    · simp
    · split <;> simp

/-! ## The engine lookup -/

/-- The search needs no more than `w` turns on a window of `w` entries: with
any two bounds that are at least `w` it gives the same result. -/
theorem bfind_loop_fuel {α κ : Type} (tbl : List α) (key : κ) (cmpfn : κ → α → Option Int) :
    ∀ (f1 f2 s w : Nat), w ≤ f1 → w ≤ f2 →
      bfind_loop tbl key cmpfn f1 s w = bfind_loop tbl key cmpfn f2 s w := by
  intro f1
  induction f1 with
  | zero =>
    intro f2 s w h1 _
    have hw : w = 0 := by omega
    subst hw
    cases f2 <;> simp [bfind_loop]
  | succ f1 ih =>
    intro f2 s w h1 h2
    cases f2 with
    | zero =>
      have hw : w = 0 := by omega
      subst hw
      simp [bfind_loop]
    | succ f2 =>
      unfold bfind_loop
      split
      · rfl
      · next hw =>
        have hlt : w / 2 < w := Nat.div_lt_self (Nat.pos_of_ne_zero hw) (by decide)
        split
        · rfl
        · split
          · rfl
          · rw [ih f2 (s + w / 2 + 1) (w - w / 2 - 1) (by omega) (by omega),
              ih f2 s (w / 2) (by omega) (by omega)]

/-- The bound `nmemb` that `oscap_bfind` gives the loop is never used up:
every larger bound gives the same result. -/
theorem oscap_bfind_fuel {α κ : Type} (tbl : List α) (nmemb : Nat) (key : κ)
    (cmpfn : κ → α → Option Int) (fuel : Nat) (h : nmemb ≤ fuel) :
    bfind_loop tbl key cmpfn fuel 0 nmemb = oscap_bfind tbl nmemb key cmpfn :=
  bfind_loop_fuel tbl key cmpfn fuel nmemb 0 nmemb h (Nat.le_refl _)

/-- With the name as the key, the first comparison of the search faults,
whatever the name is. -/
theorem engine_resolve_fault (engine : CStr) : engine_resolve engine = engine_lookup.fault :=
  rfl

/-- C3: for every engine name the lookup of `dbSQL_eval` ends in a fault
inside `engine_cmp` and gives none of the three outcomes. The name "mysql",
which `engine_map` lists with the backend "mysql", is not resolved, and the
name "notreal", which is not listed, is not reported as not found; a call of
`dbSQL_eval` with the engine "mysql" and a connection string that parses
does not return. -/
theorem C3_lookup_faults {F : Type} (fp : fp_env F) (be : odbx_backend) (errno : Int)
    (engine version sql : CStr) (probe_out : List (item F)) :
    engine_resolve engine = engine_lookup.fault ∧
    engine_cmp (cmp_arg.name engine) (cmp_arg.entry ⟨"mimer".toList, none⟩) = none ∧
    (⟨"mysql".toList, some "mysql".toList⟩ : dbEngineMap_t) ∈ engine_map ∧
    engine_resolve "mysql".toList ≠ engine_lookup.backend "mysql".toList ∧
    (∀ e ∈ engine_map, e.o_engine ≠ "notreal".toList) ∧
    engine_resolve "notreal".toList ≠ engine_lookup.not_found ∧
    dbSQL_eval fp be errno "mysql".toList version [] sql probe_out = none :=
  ⟨rfl, rfl, by decide, by decide, by decide, by decide, rfl⟩

/-- C4: the lookup of `dbSQL_eval` resolves none of the four names: for
"mysql", "postgre", "access" and "notreal" alike it ends in a fault inside
`engine_cmp`, although `engine_map` lists "mysql" with the backend "mysql",
"postgre" with the backend "pgsql" and "access" without backend, and does
not list "notreal". -/
theorem C4_examples_fault :
    engine_resolve "mysql".toList = engine_lookup.fault ∧
    (⟨"mysql".toList, some "mysql".toList⟩ : dbEngineMap_t) ∈ engine_map ∧
    engine_resolve "access".toList = engine_lookup.fault ∧
    (⟨"access".toList, none⟩ : dbEngineMap_t) ∈ engine_map ∧
    engine_resolve "notreal".toList = engine_lookup.fault ∧
    (∀ e ∈ engine_map, e.o_engine ≠ "notreal".toList) ∧
    engine_resolve "postgre".toList = engine_lookup.fault ∧
    (⟨"postgre".toList, some "pgsql".toList⟩ : dbEngineMap_t) ∈ engine_map := by
  decide

/-! ## Properties of the scrubber -/

/-- C8: `__clearmem` called on the 13 bytes of "SELECT 1 AS n" with length 13
leaves the byte at index 12 as it was, whatever `random ()` returns: the
index 12 is below the length and is not overwritten. -/
theorem C8_tail_byte_not_overwritten (rnd : Nat → Nat) (k : Nat) :
    ∃ m, (__clearmem rnd (some (cstr_bytes "SELECT 1 AS n".toList)) 13 k).1 = some m ∧
      m.length = 13 ∧ (cstr_bytes "SELECT 1 AS n".toList).get? 12 = some 110 ∧
      m.get? 12 = some 110 :=
  ⟨_, rfl, rfl, rfl, rfl⟩

/-! ## The column loop -/

theorem column_step_fields {F : Type} (fp : fp_env F) (st : result_record F × List diag)
    (col : column) :
    (column_step fp st col).1 =
      ⟨st.1.datatype, st.1.fields ++ (column_field fp col).toList⟩ := by
  unfold column_step column_field
  rcases h : column_switch fp col with ⟨_ | v, ct, ds⟩ <;> simp

theorem foldl_column_step_fields {F : Type} (fp : fp_env F) (r : row) :
    ∀ st : result_record F × List diag,
      (r.foldl (column_step fp) st).1 =
        ⟨st.1.datatype, st.1.fields ++ r.filterMap (column_field fp)⟩ := by
  induction r with
  | nil => intro st; simp
  | cons col r ih =>
    intro st
    rw [List.foldl_cons, ih, column_step_fields]
    cases h : column_field fp col <;> simp [List.filterMap_cons, h]

/-- The record of a row holds the fields its columns contribute, in column
order. -/
theorem row_result_fields {F : Type} (fp : fp_env F) (r : row) :
    (row_result fp r).1 =
      ⟨oval_datatype_t.OVAL_DATATYPE_RECORD, r.filterMap (column_field fp)⟩ := by
  unfold row_result
  rw [foldl_column_step_fields]
  simp

theorem column_field_tag {F : Type} (fp : fp_env F) (col : column) :
    (column_field fp col).map (fun f => (f.name, f.datatype)) =
      (abstract_tag col.type).map (fun t => (col.name, t)) := by
  rcases col with ⟨n, ty, v⟩
  cases ty <;> rfl

theorem length_filterMap_column_field {F : Type} (fp : fp_env F) (r : row) :
    (r.filterMap (column_field fp)).length +
      r.countP (fun c => decide (abstract_tag c.type = none)) = r.length := by
  induction r with
  | nil => rfl
  | cons col r ih =>
    have ht := column_field_tag fp col
    cases hf : column_field fp col with
    | none =>
      rw [hf] at ht
      have hn : abstract_tag col.type = none := by
        cases h : abstract_tag col.type with
        | none => rfl
        | some t => rw [h] at ht; simp at ht
      simp [List.filterMap_cons, hf, List.countP_cons, hn]
      omega
    | some f =>
      rw [hf] at ht
      have hn : ¬ abstract_tag col.type = none := by
        intro h
        rw [h] at ht
        simp at ht
      simp [List.filterMap_cons, hf, List.countP_cons, hn]
      omega

/-- C5: the record that the column loop of `dbSQL_eval` builds for a row has
the datatype record and holds exactly one field for each column of type
integer, smallint, real, double, float, char, nchar or varchar, in column
order, with the name of the column and the abstract type of its backend
type; the other columns contribute nothing, so the number of fields is the
number of columns less the number of dropped columns. The columns
(id, integer, "42"), (status, varchar, "ok") give the fields
(id, Integer, 42), (status, String, "ok"). -/
theorem C5_record_fields {F : Type} (fp : fp_env F) (r : row) :
    (row_result fp r).1.datatype = oval_datatype_t.OVAL_DATATYPE_RECORD ∧
    (row_result fp r).1.fields.map (fun f => (f.name, f.datatype)) =
      r.filterMap (fun c => (abstract_tag c.type).map (fun t => (c.name, t))) ∧
    (row_result fp r).1.fields.length =
      r.length - r.countP (fun c => decide (abstract_tag c.type = none)) ∧
    (row_result fp [⟨"id".toList, odbx_type.INTEGER, "42".toList⟩,
        ⟨"status".toList, odbx_type.VARCHAR, "ok".toList⟩]).1.fields =
      [⟨"id".toList, oval_datatype_t.OVAL_DATATYPE_INTEGER, sexp_value.number_i 42⟩,
       ⟨"status".toList, oval_datatype_t.OVAL_DATATYPE_STRING,
         sexp_value.string "ok".toList⟩] := by
  refine ⟨?_, ?_, ?_, ?_⟩
  · rw [row_result_fields]
  · rw [row_result_fields]
    simp only [List.map_filterMap]
    congr 1
    funext c
    exact column_field_tag fp c
  · rw [row_result_fields]
    have := length_filterMap_column_field fp r
    simp only
    omega
  · rw [row_result_fields]
    rfl

/-! ## The row loop and the result loop -/

theorem row_loop_item {F : Type} (fp : fp_env F) (rs : odbx_result_t) :
    ∀ st : item F × List diag,
      (row_loop fp rs st).1 =
        { st.1 with results := st.1.results ++
            (fetched_of_set rs).map (fun r => (row_result fp r).1) } := by
  induction rs with
  | nil => intro st; simp [row_loop, fetched_of_set]
  | cons x rs ih =>
    intro st
    rcases x with ⟨rc, r⟩
    unfold row_loop
    split
    · next h =>
      rw [ih]
      simp [fetched_of_set, List.takeWhile_cons, h] at *
    · next h =>
      simp [fetched_of_set, List.takeWhile_cons, h]

theorem result_loop_item {F : Type} (fp : fp_env F) (rsets : List (Int × odbx_result_t)) :
    ∀ st : drain_state F,
      (result_loop fp rsets st).itm =
        { st.itm with results := st.itm.results ++
            (fetched_rows rsets).map (fun r => (row_result fp r).1) } := by
  induction rsets with
  | nil => intro st; simp [result_loop, fetched_rows]
  | cons x rsets ih =>
    intro st
    rcases x with ⟨rc, rs⟩
    unfold result_loop
    split
    · next h =>
      rw [ih]
      simp [fetched_rows, h, row_loop_item]
    · next h =>
      simp [fetched_rows, h]

theorem strtol_val_of_consumed_zero (s : CStr) (h : (strtol s).consumed = 0) :
    (strtol s).val = 0 := by
  unfold strtol at h ⊢
  simp only at h ⊢
  split_ifs at h ⊢ with h1 h2 h3 h4
  all_goals first
    | rfl
    | (exfalso; simp only at h; omega)

/-! ## The statements of `dbSQL_eval` behind the engine lookup -/

/-- From `odbx_init` on: when the four backend calls succeed, the value is 0
and one item is added, which holds one record for each fetched row. -/
theorem eval_backend_success {F : Type} (fp : fp_env F) (be : odbx_backend)
    (uriInfo : dbURIInfo_t) (b engine version conn sql : CStr) (probe_out : List (item F))
    (hinit : be.init = ODBX_ERR_SUCCESS) (hbind : be.bind = ODBX_ERR_SUCCESS)
    (hquery : be.query = ODBX_ERR_SUCCESS) (hfinish : be.finish = ODBX_ERR_SUCCESS) :
    (eval_backend fp be uriInfo b engine version conn sql probe_out).err = 0 ∧
    (eval_backend fp be uriInfo b engine version conn sql probe_out).probe_out =
      probe_out ++ [⟨engine, version, sql, conn,
        (fetched_rows be.results).map (fun r => (row_result fp r).1)⟩] := by
  unfold eval_backend
  simp [hinit, hbind, hquery, hfinish, eval_exit, probe_cobj_add_item, result_loop_item]

/-- From `odbx_init` on: when `odbx_init`, `odbx_bind` or `odbx_query`
fails, the value is -1 and no item is added. -/
theorem eval_backend_early_failure {F : Type} (fp : fp_env F) (be : odbx_backend)
    (uriInfo : dbURIInfo_t) (b engine version conn sql : CStr) (probe_out : List (item F))
    (h : be.init ≠ ODBX_ERR_SUCCESS ∨ be.bind ≠ ODBX_ERR_SUCCESS ∨
      be.query ≠ ODBX_ERR_SUCCESS) :
    (eval_backend fp be uriInfo b engine version conn sql probe_out).err = -1 ∧
    (eval_backend fp be uriInfo b engine version conn sql probe_out).probe_out = probe_out := by
  unfold eval_backend
  by_cases hi : be.init = ODBX_ERR_SUCCESS
  · by_cases hb : be.bind = ODBX_ERR_SUCCESS
    · by_cases hq : be.query = ODBX_ERR_SUCCESS
      · simp [hi, hb, hq] at h
      · simp [hi, hb, hq, eval_exit]
    · simp [hi, hb, eval_exit]
  · simp [hi, eval_exit]

/-- From `odbx_init` on: `odbx_finish` is among the calls exactly when
`odbx_init` and `odbx_bind` both succeed; after a failed `odbx_bind` the
calls are `odbx_init` and `odbx_bind` only. -/
theorem eval_backend_finish_called {F : Type} (fp : fp_env F) (be : odbx_backend)
    (uriInfo : dbURIInfo_t) (b engine version conn sql : CStr) (probe_out : List (item F)) :
    (odbx_call.finish ∈ (eval_backend fp be uriInfo b engine version conn sql probe_out).calls ↔
      be.init = ODBX_ERR_SUCCESS ∧ be.bind = ODBX_ERR_SUCCESS) ∧
    (be.init = ODBX_ERR_SUCCESS → be.bind ≠ ODBX_ERR_SUCCESS →
      (eval_backend fp be uriInfo b engine version conn sql probe_out).calls =
        [odbx_call.init b uriInfo.host uriInfo.port,
         odbx_call.bind uriInfo.db uriInfo.user uriInfo.pass]) := by
  unfold eval_backend
  by_cases hi : be.init = ODBX_ERR_SUCCESS
  · by_cases hb : be.bind = ODBX_ERR_SUCCESS
    · by_cases hq : be.query = ODBX_ERR_SUCCESS
      · by_cases hf : be.finish = ODBX_ERR_SUCCESS <;> simp [hi, hb, hq, hf, eval_exit]
      · simp [hi, hb, hq, eval_exit]
    · simp [hi, hb, eval_exit]
  · simp [hi, eval_exit]

/-- From `odbx_init` on: when only the final `odbx_finish` fails, the value
is -1 and the item with the records of all fetched rows has been added. -/
theorem eval_backend_finish_failure {F : Type} (fp : fp_env F) (be : odbx_backend)
    (uriInfo : dbURIInfo_t) (b engine version conn sql : CStr) (probe_out : List (item F))
    (hinit : be.init = ODBX_ERR_SUCCESS) (hbind : be.bind = ODBX_ERR_SUCCESS)
    (hquery : be.query = ODBX_ERR_SUCCESS) (hfinish : be.finish ≠ ODBX_ERR_SUCCESS) :
    (eval_backend fp be uriInfo b engine version conn sql probe_out).err = -1 ∧
    (eval_backend fp be uriInfo b engine version conn sql probe_out).probe_out =
      probe_out ++ [⟨engine, version, sql, conn,
        (fetched_rows be.results).map (fun r => (row_result fp r).1)⟩] := by
  unfold eval_backend
  simp [hinit, hbind, hquery, hfinish, eval_exit, probe_cobj_add_item, result_loop_item]

/-- From `odbx_init` on, the value does not depend on the result sets and
rows that the backend delivers. -/
theorem eval_backend_err_results {F : Type} (fp : fp_env F) (be : odbx_backend)
    (uriInfo : dbURIInfo_t) (b engine version conn sql : CStr) (probe_out : List (item F))
    (rs : List (Int × odbx_result_t)) :
    (eval_backend fp { be with results := rs } uriInfo b engine version conn sql
        probe_out).err =
      (eval_backend fp be uriInfo b engine version conn sql probe_out).err := by
  unfold eval_backend
  simp only
  split
  · rfl
  · split
    · rfl
    · split
      · rfl
      · split <;> rfl

/-! ## The runs of `dbSQL_eval` -/

/-- A call of `dbSQL_eval` returns only when `dbURIInfo_parse` returned -1:
then it returns -1 with the output collection as it was, after the
diagnostic of the malformed connection string and without any backend call.
In every other run the call does not return: it is aborted in the parser or
faults in the engine lookup. -/
theorem dbSQL_eval_returns {F : Type} (fp : fp_env F) (be : odbx_backend) (errno : Int)
    (engine version conn sql : CStr) (probe_out : List (item F)) :
    ((dbURIInfo_parse uriInfo_init conn errno).1 = parse_exit.returned (-1) →
      dbSQL_eval fp be errno engine version conn sql probe_out =
        some ⟨-1, probe_out, [diag.malformed_connection_string conn], [], uriInfo_init, []⟩) ∧
    ((dbURIInfo_parse uriInfo_init conn errno).1 ≠ parse_exit.returned (-1) →
      dbSQL_eval fp be errno engine version conn sql probe_out = none) := by
  rcases dbURIInfo_parse_cases uriInfo_init conn errno with h | h | h
  · constructor
    · intro h1; rw [h] at h1; exact absurd h1 (by decide)
    · intro _
      unfold dbSQL_eval
      simp [h, engine_resolve_fault]
  · constructor
    · intro _
      unfold dbSQL_eval
      simp only [h]
      rfl
    · intro h1; rw [h] at h1; exact absurd rfl h1
  · constructor
    · intro h1; rw [h] at h1; exact absurd h1 (by decide)
    · intro _
      unfold dbSQL_eval
      simp [h]

/-- The value of a call of `dbSQL_eval` that returns is the same for any
result sets and rows of the backend. -/
theorem dbSQL_eval_err_results {F : Type} (fp : fp_env F) (be : odbx_backend) (errno : Int)
    (engine version conn sql : CStr) (probe_out : List (item F))
    (rs : List (Int × odbx_result_t)) :
    (dbSQL_eval fp { be with results := rs } errno engine version conn sql probe_out).map
        (fun r => r.err) =
      (dbSQL_eval fp be errno engine version conn sql probe_out).map (fun r => r.err) := by
  by_cases h : (dbURIInfo_parse uriInfo_init conn errno).1 = parse_exit.returned (-1)
  · rw [(dbSQL_eval_returns fp _ errno engine version conn sql probe_out).1 h,
      (dbSQL_eval_returns fp _ errno engine version conn sql probe_out).1 h]
  · rw [(dbSQL_eval_returns fp _ errno engine version conn sql probe_out).2 h,
      (dbSQL_eval_returns fp _ errno engine version conn sql probe_out).2 h]

/-- C6: in the run with engine "sqlite", version "3", connection string
"Database=/tmp/x.db", sql "SELECT 1 AS n" and a backend all of whose calls
succeed and which delivers one row with the integer column n = "1", the
connection string parses (0) and "sqlite" is listed with the backend
"sqlite", but the engine lookup faults: `dbSQL_eval` does not return 0 and
adds no item, it does not return at all. -/
theorem C6_scenario_faults {F : Type} (fp : fp_env F) (errno : Int)
    (probe_out : List (item F)) :
    (dbURIInfo_parse uriInfo_init "Database=/tmp/x.db".toList errno).1 =
      parse_exit.returned 0 ∧
    (⟨"sqlite".toList, some "sqlite".toList⟩ : dbEngineMap_t) ∈ engine_map ∧
    engine_resolve "sqlite".toList = engine_lookup.fault ∧
    dbSQL_eval fp
        ⟨0, 0, 0, [(3, [(1, [⟨"n".toList, odbx_type.INTEGER, "1".toList⟩])])], 0⟩ errno
        "sqlite".toList "3".toList "Database=/tmp/x.db".toList "SELECT 1 AS n".toList
        probe_out = none :=
  ⟨rfl, by decide, rfl, rfl⟩

/-- C7: with the connection string "uid;Server=h", whose first token is the
bare alias "uid", parsing fails, yet `dbSQL_eval` does not return a failure:
the process is aborted at `__fail` of `dbURIInfo_parse`. With the bare alias
as the last token, as in "Server=h;uid", the call returns -1 and leaves the
output collection as it was. A run whose engine "notreal" is not listed does
not return a failure either: it faults in the lookup. -/
theorem C7_failure_without_return {F : Type} (fp : fp_env F) (be : odbx_backend)
    (errno : Int) (engine version sql : CStr) (probe_out : List (item F)) :
    (dbURIInfo_parse uriInfo_init "uid;Server=h".toList errno).1 = parse_exit.aborted ∧
    dbSQL_eval fp be errno engine version "uid;Server=h".toList sql probe_out = none ∧
    (dbURIInfo_parse uriInfo_init "Server=h;uid".toList errno).1 =
      parse_exit.returned (-1) ∧
    dbSQL_eval fp be errno engine version "Server=h;uid".toList sql probe_out =
      some ⟨-1, probe_out, [diag.malformed_connection_string "Server=h;uid".toList], [],
        uriInfo_init, []⟩ ∧
    (∀ e ∈ engine_map, e.o_engine ≠ "notreal".toList) ∧
    dbSQL_eval fp be errno "notreal".toList version [] sql probe_out = none :=
  ⟨rfl, rfl, rfl, rfl, by decide, rfl⟩

/-- C10: an integer or smallint column whose text has no decimal digits to
parse (`strtol` consumes nothing) still contributes a field, with the name
of the column, the type Integer and the value 0; the diagnostic is emitted,
the fields of the other columns of the row are built as without it, and the
value returned, by the statements from `odbx_init` on and by `dbSQL_eval`,
is the one returned for any other rows. -/
theorem C10_unparsable_integer_gives_zero {F : Type} (fp : fp_env F) (col : column)
    (pre post : row) (be : odbx_backend) (errno : Int) (engine version conn sql : CStr)
    (probe_out : List (item F)) (rs : List (Int × odbx_result_t))
    (hty : col.type = odbx_type.INTEGER ∨ col.type = odbx_type.SMALLINT)
    (h0 : (strtol col.value).consumed = 0) :
    column_field fp col =
      some ⟨col.name, oval_datatype_t.OVAL_DATATYPE_INTEGER, sexp_value.number_i 0⟩ ∧
    (column_switch fp col).2.2 = [diag.strtol_failed col.value] ∧
    (row_result fp (pre ++ col :: post)).1.fields =
      (row_result fp pre).1.fields ++
        ⟨col.name, oval_datatype_t.OVAL_DATATYPE_INTEGER, sexp_value.number_i 0⟩ ::
          (row_result fp post).1.fields ∧
    (∀ (uriInfo : dbURIInfo_t) (b : CStr),
      (eval_backend fp { be with results := rs } uriInfo b engine version conn sql
          probe_out).err =
        (eval_backend fp be uriInfo b engine version conn sql probe_out).err) ∧
    (dbSQL_eval fp { be with results := rs } errno engine version conn sql probe_out).map
        (fun r => r.err) =
      (dbSQL_eval fp be errno engine version conn sql probe_out).map (fun r => r.err) := by
  have hv : long_to_int (strtol col.value).val = 0 := by
    rw [strtol_val_of_consumed_zero _ h0]
    decide
  have hf : column_field fp col =
      some ⟨col.name, oval_datatype_t.OVAL_DATATYPE_INTEGER, sexp_value.number_i 0⟩ := by
    unfold column_field column_switch
    rcases hty with h | h <;> simp [h, hv]
  refine ⟨hf, ?_, ?_,
    fun uriInfo b => eval_backend_err_results fp be uriInfo b engine version conn sql
      probe_out rs,
    dbSQL_eval_err_results fp be errno engine version conn sql probe_out rs⟩
  · unfold column_switch
    rcases hty with h | h <;> simp [h, hv, h0]
  · simp only [row_result_fields, List.filterMap_append, List.filterMap_cons, hf]

/-- C10 at a column n of type integer with the text "abc", alone in its
row. -/
theorem C10_unparsable_integer_gives_zero_witness :
    ((odbx_type.INTEGER = odbx_type.INTEGER ∨ odbx_type.INTEGER = odbx_type.SMALLINT) ∧
      (strtol "abc".toList).consumed = 0) ∧
    (column_field fp_unit ⟨"n".toList, odbx_type.INTEGER, "abc".toList⟩ =
      some ⟨"n".toList, oval_datatype_t.OVAL_DATATYPE_INTEGER, sexp_value.number_i 0⟩ ∧
    (column_switch fp_unit ⟨"n".toList, odbx_type.INTEGER, "abc".toList⟩).2.2 =
      [diag.strtol_failed "abc".toList] ∧
    (row_result fp_unit ([] ++ ⟨"n".toList, odbx_type.INTEGER, "abc".toList⟩ :: [])).1.fields =
      (row_result fp_unit []).1.fields ++
        ⟨"n".toList, oval_datatype_t.OVAL_DATATYPE_INTEGER, sexp_value.number_i 0⟩ ::
          (row_result fp_unit []).1.fields ∧
    (∀ (uriInfo : dbURIInfo_t) (b : CStr),
      (eval_backend fp_unit
          { (⟨0, 0, 0, [], 0⟩ : odbx_backend) with
            results := [(3, [(1, [⟨"n".toList, odbx_type.INTEGER, "abc".toList⟩])])] }
          uriInfo b "sqlite".toList "3".toList [] "SELECT n".toList []).err =
        (eval_backend fp_unit ⟨0, 0, 0, [], 0⟩ uriInfo b "sqlite".toList "3".toList []
          "SELECT n".toList []).err) ∧
    (dbSQL_eval fp_unit
        { (⟨0, 0, 0, [], 0⟩ : odbx_backend) with
          results := [(3, [(1, [⟨"n".toList, odbx_type.INTEGER, "abc".toList⟩])])] }
        0 "sqlite".toList "3".toList [] "SELECT n".toList []).map (fun r => r.err) =
      (dbSQL_eval fp_unit ⟨0, 0, 0, [], 0⟩ 0 "sqlite".toList "3".toList []
        "SELECT n".toList []).map (fun r => r.err)) :=
  ⟨⟨Or.inl rfl, by decide⟩,
    C10_unparsable_integer_gives_zero fp_unit ⟨"n".toList, odbx_type.INTEGER, "abc".toList⟩
      [] [] ⟨0, 0, 0, [], 0⟩ 0 "sqlite".toList "3".toList [] "SELECT n".toList []
      [(3, [(1, [⟨"n".toList, odbx_type.INTEGER, "abc".toList⟩])])]
      (Or.inl rfl) (by decide)⟩

/-! ## The record handed to `dbURIInfo_clear` -/

/-- The function `dbURIInfo_clear` on a record whose five strings are all
set: `__clearmem` is called for host, user, pass and db, each with its full
length, and not for port; afterwards all five fields are `NULL`. -/
theorem dbURIInfo_clear_all_set :
    dbURIInfo_clear ⟨some "db1".toList, some "5432".toList, some "joe".toList,
        some "secret".toList, some "prod".toList, 30⟩ =
      ([⟨"db1".toList, 3⟩, ⟨"joe".toList, 3⟩, ⟨"secret".toList, 6⟩, ⟨"prod".toList, 4⟩],
       ⟨none, none, none, none, none, 30⟩) := by
  decide

/-- C16: `engine_map` is not in strictly ascending order of `o_engine` under
`strcmp`: the entry "db2" at index 1 is greater than its successor "cache",
and the entry "monetdb" at index 11 is greater than its successor
"mimer". -/
theorem C16_engine_map_not_sorted :
    ¬ engine_map_sorted engine_map ∧
    engine_map.get? 1 = some ⟨"db2".toList, none⟩ ∧
    engine_map.get? 2 = some ⟨"cache".toList, none⟩ ∧
    0 < strcmp "db2".toList "cache".toList ∧
    engine_map.get? 11 = some ⟨"monetdb".toList, none⟩ ∧
    engine_map.get? 12 = some ⟨"mimer".toList, none⟩ ∧
    0 < strcmp "monetdb".toList "mimer".toList := by
  decide

/-- Leaving out the entries "cache" and "monetdb" puts the table in strictly
ascending order: these two are the only entries out of place. -/
theorem engine_map_sorted_without_two :
    engine_map_sorted (engine_map.filter
      (fun e => decide (e.o_engine ≠ "cache".toList ∧ e.o_engine ≠ "monetdb".toList))) := by
  decide

/-! ## How `dbURIInfo_parse` ends -/

/-- The tokens `strsep` delivers are the pieces of the connection string
between its `;` characters. -/
theorem strsep_all_eq_splitOn (conn : CStr) : strsep_all conn = conn.splitOn ';' := by
  induction conn with
  | nil => rfl
  | cons c s ih =>
    unfold List.splitOn at ih ⊢
    rw [strsep_all, List.splitOnP_cons, ← ih]
    by_cases hc : c = ';'
    · simp [hc]
    · simp only [hc, if_false, beq_iff_eq]
      cases hs : strsep_all s with
      | nil => exact absurd hs (strsep_all_ne_nil s)
      | cons t ts => rfl

theorem mem_of_mem_strsep_all (conn : CStr) :
    ∀ tok ∈ strsep_all conn, ∀ c ∈ tok, c ∈ conn := by
  induction conn with
  | nil => intro tok ht c hc; simp [strsep_all] at ht; subst ht; exact hc
  | cons x s ih =>
    intro tok ht c hc
    rw [strsep_all] at ht
    split at ht
    · rcases List.mem_cons.mp ht with h | h
      · subst h; simp at hc
      · exact List.mem_cons_of_mem _ (ih tok h c hc)
    · cases hs : strsep_all s with
      | nil => exact absurd hs (strsep_all_ne_nil s)
      | cons t ts =>
        rw [hs] at ht ih
        rcases List.mem_cons.mp ht with h | h
        · subst h
          rcases List.mem_cons.mp hc with h2 | h2
          · subst h2; exact List.mem_cons_self _ _
          · exact List.mem_cons_of_mem _ (ih t (List.mem_cons_self _ _) c h2)
        · exact List.mem_cons_of_mem _ (ih tok (List.mem_cons_of_mem _ h) c hc)

theorem length_le_of_strcasecmp_eq_zero :
    ∀ (a b : CStr), is_cstr a → strcasecmp a b = 0 → a.length ≤ b.length
  | [], _, _, _ => Nat.zero_le _
  | a :: as, [], ha, h => by
    simp only [strcasecmp] at h
    have h0 : (tolower a).toNat = 0 := by omega
    exact absurd (tolower_toNat_eq_zero h0) (ha a (List.mem_cons_self _ _))
  | a :: as, b :: bs, ha, h => by
    simp only [strcasecmp] at h
    split at h
    · have := length_le_of_strcasecmp_eq_zero as bs
        (fun c hc => ha c (List.mem_cons_of_mem _ hc)) h
      simp only [List.length_cons]
      omega
    · next hab => exact absurd (char_eq_of_toNat_eq (by omega)) hab

/-- A bare alias makes the loop leave through `__fail`. -/
theorem parse_token_fail_of_bare_alias (st : parse_state) (tok : CStr) (h : bare_alias tok) :
    (parse_token st tok).1 = false := by
  unfold bare_alias known_aliases at h
  simp only [List.mem_cons, List.mem_singleton, List.not_mem_nil, or_false] at h
  cases tok with
  | nil => exact absurd h (by decide)
  | cons c t =>
    have key : ∀ rest : CStr, rest.map tolower = rest → t.map tolower = rest →
        strcasecmp rest t = 0 :=
      fun rest h1 h2 => strcasecmp_eq_zero_of_map_eq rest t (by rw [h1, h2])
    unfold parse_token
    simp only [matchitem1_eq, matchitem2_eq]
    rcases h with h | h | h | h | h | h
    · have h2 : tolower c :: t.map tolower = 's' :: "erver".toList := h
      injection h2 with hc ht
      rw [if_pos hc, if_pos (key _ (by decide) ht)]
    · have h2 : tolower c :: t.map tolower = 'p' :: "ort".toList := h
      injection h2 with hc ht
      rw [if_neg (by rw [hc]; decide), if_pos hc, if_pos (key _ (by decide) ht)]
    · have h2 : tolower c :: t.map tolower = 'p' :: "wd".toList := h
      injection h2 with hc ht
      have hne : ¬ strcasecmp "ort".toList t = 0 := by
        intro h0
        have hl : t.length = 2 := by
          have := congrArg List.length ht
          rw [List.length_map] at this
          exact this
        have h3 : 3 ≤ t.length :=
          length_le_of_strcasecmp_eq_zero "ort".toList t (by decide) h0
        omega
      rw [if_neg (by rw [hc]; decide), if_pos hc, if_neg hne, if_pos (key _ (by decide) ht)]
    · have h2 : tolower c :: t.map tolower = 'd' :: "atabase".toList := h
      injection h2 with hc ht
      rw [if_neg (by rw [hc]; decide), if_neg (by rw [hc]; decide), if_pos hc,
        if_pos (key _ (by decide) ht)]
    · have h2 : tolower c :: t.map tolower = 'u' :: "id".toList := h
      injection h2 with hc ht
      rw [if_neg (by rw [hc]; decide), if_neg (by rw [hc]; decide),
        if_neg (by rw [hc]; decide), if_pos hc, if_pos (key _ (by decide) ht)]
    · have h2 : tolower c :: t.map tolower = 'c' :: "onnecttimeout".toList := h
      injection h2 with hc ht
      rw [if_neg (by rw [hc]; decide), if_neg (by rw [hc]; decide),
        if_neg (by rw [hc]; decide), if_neg (by rw [hc]; decide), if_pos hc,
        if_pos (key _ (by decide) ht)]

theorem dropWhile_congr_of_mem {α : Type} (p q : α → Bool) :
    ∀ (l : List α), (∀ x ∈ l, p x = q x) → l.dropWhile p = l.dropWhile q
  | [], _ => rfl
  | a :: l, h => by
    have ha := h a (List.mem_cons_self _ _)
    have hl := dropWhile_congr_of_mem p q l (fun x hx => h x (List.mem_cons_of_mem _ hx))
    simp only [List.dropWhile_cons, ha, hl]

/-- A token of a C string lets the loop go on exactly when it is no bare
alias. -/
theorem parse_token_ok_iff (st : parse_state) (tok : CStr) (hc : is_cstr tok) :
    (parse_token st tok).1 = !decide (bare_alias tok) := by
  by_cases hb : bare_alias tok
  · simp [hb, parse_token_fail_of_bare_alias st tok hb]
  · cases hf : (parse_token st tok).1 with
    | true => simp [hb]
    | false => exact absurd (bare_alias_of_parse_token_fail st tok hc hf) hb

/-- What `dbURIInfo_parse` does on every C string: the record is left as it
was, and the call returns 0 when no piece between the `;` characters is a
bare alias, returns -1 when the first bare alias is the last piece, and is
aborted when pieces follow the first bare alias. -/
theorem dbURIInfo_parse_eq (info : dbURIInfo_t) (conn : CStr) (errno : Int)
    (hc : is_cstr conn) :
    dbURIInfo_parse info conn errno =
      (exit_at_first_bare_alias
        ((conn.splitOn ';').dropWhile (fun t => !decide (bare_alias t))), info) := by
  apply Prod.ext
  · unfold dbURIInfo_parse
    simp only
    rw [parse_loop_exit _ _ rfl, ← strsep_all_eq_splitOn]
    congr 1
    apply dropWhile_congr_of_mem
    intro t ht
    exact parse_token_ok_iff _ t (fun c hcm => hc c (mem_of_mem_strsep_all conn t ht c hcm))
  · unfold dbURIInfo_parse
    simp only
    rw [parse_loop_state _ _ rfl]

theorem dropWhile_eq_nil_of_forall {α : Type} (p : α → Bool) :
    ∀ (l : List α), (∀ x ∈ l, p x = true) → l.dropWhile p = []
  | [], _ => rfl
  | a :: l, h => by
    simp only [List.dropWhile_cons, h a (List.mem_cons_self _ _), if_true]
    exact dropWhile_eq_nil_of_forall p l (fun x hx => h x (List.mem_cons_of_mem _ hx))

/-- C1: on the connection string "Server=a;UID=u;server =b", whose tokens
all have the form key, optional white space, `=`, value with a recognised
key, `dbURIInfo_parse` returns 0 but stores nothing: the record is left as
it was on entry, so that with the record of `dbSQL_eval` host and user stay
`NULL` instead of holding "b" and "u". -/
theorem C1_values_not_stored (info : dbURIInfo_t) (errno : Int) :
    dbURIInfo_parse info "Server=a;UID=u;server =b".toList errno =
      (parse_exit.returned 0, info) ∧
    (dbURIInfo_parse uriInfo_init "Server=a;UID=u;server =b".toList errno).2.host = none ∧
    (dbURIInfo_parse uriInfo_init "Server=a;UID=u;server =b".toList errno).2.user = none :=
  ⟨rfl, rfl, rfl⟩

/-- C2: the connection strings "foo=bar" and "Server=h;foo=bar" hold a token
with an unrecognised key, and `dbURIInfo_parse` returns 0 for both, not
-1. -/
theorem C2_unknown_key_accepted :
    (dbURIInfo_parse uriInfo_init "foo=bar".toList 0).1 = parse_exit.returned 0 ∧
    (dbURIInfo_parse uriInfo_init "Server=h;foo=bar".toList 0).1 = parse_exit.returned 0 ∧
    ¬ has_known_key "foo=bar".toList := by
  decide

/-- C2: a token with an unrecognised key is not rejected. For every
connection string that holds such a token, `dbURIInfo_parse` returns 0
provided that no token is a bare alias; in particular, when all tokens have
unrecognised keys it returns 0 and leaves the record as it was. -/
theorem C2_unknown_key_not_rejected (info : dbURIInfo_t) (conn : CStr) (errno : Int)
    (hc : is_cstr conn)
    (_hunk : ∃ t ∈ conn.splitOn ';', ¬ has_known_key t) :
    ((∀ t ∈ conn.splitOn ';', ¬ bare_alias t) →
      (dbURIInfo_parse info conn errno).1 = parse_exit.returned 0) ∧
    ((∀ t ∈ conn.splitOn ';', ¬ has_known_key t) →
      dbURIInfo_parse info conn errno = (parse_exit.returned 0, info)) := by
  have h := dbURIInfo_parse_eq info conn errno hc
  have key : (∀ t ∈ conn.splitOn ';', ¬ bare_alias t) →
      dbURIInfo_parse info conn errno = (parse_exit.returned 0, info) := by
    intro hbare
    have hd : (conn.splitOn ';').dropWhile (fun t => !decide (bare_alias t)) = [] :=
      dropWhile_eq_nil_of_forall _ _ (fun t ht => by simp [hbare t ht])
    rw [hd] at h
    exact h
  constructor
  · intro hbare
    rw [key hbare]
  · intro hall
    exact key (fun t ht hb => hall t ht (has_known_key_of_bare_alias t hb))

/-- C2 at the connection strings "Server=h;foo=bar", in which no token is a
bare alias, and "foo=bar;x", all of whose tokens have unrecognised keys. -/
theorem C2_unknown_key_not_rejected_witness :
    ((is_cstr "Server=h;foo=bar".toList ∧
      ∃ t ∈ "Server=h;foo=bar".toList.splitOn ';', ¬ has_known_key t) ∧
     (∀ t ∈ "Server=h;foo=bar".toList.splitOn ';', ¬ bare_alias t) ∧
     (dbURIInfo_parse uriInfo_init "Server=h;foo=bar".toList 0).1 = parse_exit.returned 0) ∧
    ((is_cstr "foo=bar;x".toList ∧
      ∃ t ∈ "foo=bar;x".toList.splitOn ';', ¬ has_known_key t) ∧
     (∀ t ∈ "foo=bar;x".toList.splitOn ';', ¬ has_known_key t) ∧
     dbURIInfo_parse uriInfo_init "foo=bar;x".toList 0 =
       (parse_exit.returned 0, uriInfo_init)) :=
  ⟨⟨⟨by decide, by decide⟩, by decide,
      (C2_unknown_key_not_rejected uriInfo_init "Server=h;foo=bar".toList 0
        (by decide) (by decide)).1 (by decide)⟩,
    ⟨⟨by decide, by decide⟩, by decide,
      (C2_unknown_key_not_rejected uriInfo_init "foo=bar;x".toList 0
        (by decide) (by decide)).2 (by decide)⟩⟩

/-- C9: on the connection string "connecttimeout=abc" `dbURIInfo_parse`
returns 0 and leaves the record of `dbSQL_eval` as it was initialised, so
that `conn_timeout` is 0 and not the default 30. -/
theorem C9_timeout_not_defaulted (errno : Int) :
    dbURIInfo_parse uriInfo_init "connecttimeout=abc".toList errno =
      (parse_exit.returned 0, uriInfo_init) ∧
    (dbURIInfo_parse uriInfo_init "connecttimeout=abc".toList errno).2.conn_timeout = 0 ∧
    (dbURIInfo_parse uriInfo_init "connecttimeout=abc".toList errno).2.conn_timeout ≠
      SQLPROBE_DEFAULT_CONNTIMEOUT :=
  ⟨rfl, rfl, fun h => absurd (show (0 : Int) = 30 from h) (by decide)⟩

/-- C18: `dbURIInfo_parse` leaves the record behind `info` exactly as it was
on entry, for every connection string and however the call ends: returning
0, returning -1, or aborted at `__fail`. The macros never reach their
assignment: when the alias matches, the test for `=` fails. -/
theorem C18_parse_leaves_record (info : dbURIInfo_t) (conn : CStr) (errno : Int) :
    (dbURIInfo_parse info conn errno).2 = info ∧
    ((dbURIInfo_parse info conn errno).1 = parse_exit.returned 0 ∨
      (dbURIInfo_parse info conn errno).1 = parse_exit.returned (-1) ∨
      (dbURIInfo_parse info conn errno).1 = parse_exit.aborted) ∧
    (∀ rest tok v, matchitem1 rest tok ≠ match_outcome.assign v) ∧
    (∀ rest1 rest2 tok v, matchitem2 rest1 rest2 tok ≠ Sum.inl (match_outcome.assign v) ∧
      matchitem2 rest1 rest2 tok ≠ Sum.inr (match_outcome.assign v)) := by
  refine ⟨?_, ?_, ?_, ?_⟩
  · rcases dbURIInfo_parse_cases info conn errno with h | h | h <;> rw [h]
  · rcases dbURIInfo_parse_cases info conn errno with h | h | h <;> rw [h] <;> simp
  · intro rest tok v
    rw [matchitem1_eq]
    split <;> simp
  · intro rest1 rest2 tok v
    rw [matchitem2_eq]
    split
    · simp
    · split <;> simp

/-- C19: the connection string "uid;Server=h" has the bare word "uid" as a
piece, yet `dbURIInfo_parse` does not return -1 on it: the call is aborted
at `__fail`, where `oscap_free (copy)` is handed the pointer behind "uid;".
With the bare word as the last piece, as in "Server=h;uid", the call returns
-1. -/
theorem C19_bare_alias_before_end_aborts :
    bare_alias "uid".toList ∧
    "uid".toList ∈ "uid;Server=h".toList.splitOn ';' ∧
    strsep "uid;Server=h".toList = ("uid".toList, some "Server=h".toList) ∧
    dbURIInfo_parse uriInfo_init "uid;Server=h".toList 0 =
      (parse_exit.aborted, uriInfo_init) ∧
    strsep_all "Server=h;uid".toList = ["Server=h".toList, "uid".toList] ∧
    strsep "uid".toList = ("uid".toList, none) ∧
    dbURIInfo_parse uriInfo_init "Server=h;uid".toList 0 =
      (parse_exit.returned (-1), uriInfo_init) := by
  decide

/-! ## The bytes `__clearmem` leaves alone -/

theorem get?_set_of_ne (mem : List Nat) (m n a : Nat) (h : m ≠ n) :
    (mem.set m a).get? n = mem.get? n := by
  simp [List.getElem?_set_ne h]

theorem store_word_get? (mem : List Nat) (l v i : Nat) (h : 4 * l + 4 ≤ i) :
    (store_word mem l v).get? i = mem.get? i := by
  unfold store_word
  rw [get?_set_of_ne _ _ _ _ (by omega), get?_set_of_ne _ _ _ _ (by omega),
    get?_set_of_ne _ _ _ _ (by omega), get?_set_of_ne _ _ _ _ (by omega)]

theorem store_word_length (mem : List Nat) (l v : Nat) :
    (store_word mem l v).length = mem.length := by
  simp [store_word]

/-- The word loop writes below index `4 * n` only. -/
theorem clear_words_get? (rnd : Nat → Nat) :
    ∀ (n : Nat) (st : List Nat × Nat) (i : Nat), 4 * n ≤ i →
      (clear_words rnd n st).1.get? i = st.1.get? i := by
  intro n
  induction n with
  | zero => intro st i _; rfl
  | succ l ih =>
    intro st i h
    rcases st with ⟨mem, k⟩
    rw [clear_words, ih _ i (by omega)]
    exact store_word_get? mem l _ i (by omega)

theorem clear_words_length (rnd : Nat → Nat) :
    ∀ (n : Nat) (st : List Nat × Nat), (clear_words rnd n st).1.length = st.1.length := by
  intro n
  induction n with
  | zero => intro st; rfl
  | succ l ih =>
    intro st
    rcases st with ⟨mem, k⟩
    rw [clear_words, ih]
    exact store_word_length mem l _

/-- The tail switch writes below index `len % 4` only. -/
theorem clear_tail_get? (rnd : Nat → Nat) (len : Nat) (st : List Nat × Nat) (i : Nat)
    (h : len % 4 ≤ i) : (clear_tail rnd len st).1.get? i = st.1.get? i := by
  have h4 : len % 4 = 0 ∨ len % 4 = 1 ∨ len % 4 = 2 ∨ len % 4 = 3 := by omega
  unfold clear_tail
  rcases h4 with e | e | e | e
  · simp [e]
  · have n0 : 0 ≠ i := by omega
    simp [e, List.getElem?_set_ne n0]
  · have n0 : 0 ≠ i := by omega
    have n1 : 1 ≠ i := by omega
    simp [e, List.getElem?_set_ne n0, List.getElem?_set_ne n1]
  · have n0 : 0 ≠ i := by omega
    have n1 : 1 ≠ i := by omega
    have n2 : 2 ≠ i := by omega
    simp [e, List.getElem?_set_ne n0, List.getElem?_set_ne n1, List.getElem?_set_ne n2]

theorem clear_tail_length (rnd : Nat → Nat) (len : Nat) (st : List Nat × Nat) :
    (clear_tail rnd len st).1.length = st.1.length := by
  unfold clear_tail
  simp only
  split_ifs <;> simp

/-- C20: `__clearmem (ptr, len)` writes to no byte at an index of `len` or
more: such a byte keeps its value and the buffer keeps its size. The word
loop leaves every index from `4 * (len / 4)` on as it was, and the tail
switch every index from `len % 4` on. -/
theorem C20_clearmem_writes_below_len (rnd : Nat → Nat) (mem : List Nat) (len k i : Nat)
    (h : len ≤ i) :
    (∃ m, (__clearmem rnd (some mem) len k).1 = some m ∧ m.length = mem.length ∧
      m.get? i = mem.get? i) ∧
    (∀ j, 4 * (len / 4) ≤ j → (clear_words rnd (len / 4) (mem, k)).1.get? j = mem.get? j) ∧
    (∀ (st : List Nat × Nat) (j : Nat), len % 4 ≤ j →
      (clear_tail rnd len st).1.get? j = st.1.get? j) := by
  refine ⟨⟨_, rfl, ?_, ?_⟩, ?_, ?_⟩
  · rw [clear_tail_length, clear_words_length]
  · have h1 : len % 4 ≤ i := Nat.le_trans (Nat.mod_le _ _) h
    have h2 : 4 * (len / 4) ≤ i := Nat.le_trans (Nat.mul_div_le _ _) h
    rw [clear_tail_get? rnd len _ i h1, clear_words_get? rnd _ _ i h2]
  · intro j hj
    exact clear_words_get? rnd _ _ j hj
  · intro st j hj
    exact clear_tail_get? rnd len st j hj

/-- C20 at a buffer of eight bytes scrubbed with length 7: the byte at
index 7 keeps its value. -/
theorem C20_clearmem_writes_below_len_witness :
    (7 : Nat) ≤ 7 ∧
    ((∃ m, (__clearmem (fun n => 1000 + n) (some [1, 2, 3, 4, 5, 6, 7, 8]) 7 0).1 = some m ∧
        m.length = [1, 2, 3, 4, 5, 6, 7, 8].length ∧
        m.get? 7 = [1, 2, 3, 4, 5, 6, 7, 8].get? 7) ∧
      (∀ j, 4 * (7 / 4) ≤ j →
        (clear_words (fun n => 1000 + n) (7 / 4) ([1, 2, 3, 4, 5, 6, 7, 8], 0)).1.get? j =
          [1, 2, 3, 4, 5, 6, 7, 8].get? j) ∧
      (∀ (st : List Nat × Nat) (j : Nat), 7 % 4 ≤ j →
        (clear_tail (fun n => 1000 + n) 7 st).1.get? j = st.1.get? j)) :=
  ⟨Nat.le_refl 7,
    C20_clearmem_writes_below_len (fun n => 1000 + n) [1, 2, 3, 4, 5, 6, 7, 8] 7 0 7
      (Nat.le_refl 7)⟩

/-! ## Integer columns -/

theorem foldl_digits (ds : List Char) :
    ∀ acc : Nat, ds.foldl (fun acc d => 10 * acc + (d.toNat - 48)) acc =
      acc * 10 ^ ds.length + digits_denote ds := by
  induction ds with
  | nil => intro acc; simp [digits_denote]
  | cons d ds ih =>
    intro acc
    rw [List.foldl_cons, ih]
    simp only [digits_denote, List.length_cons, pow_succ]
    ring

theorem digits_value_eq_denote (ds : List Char) : digits_value ds = digits_denote ds := by
  unfold digits_value
  rw [foldl_digits]
  simp

theorem takeWhile_isdigit_of_all (ds : List Char) (h : ds.all isdigit = true) :
    ds.takeWhile isdigit = ds := by
  rw [List.takeWhile_eq_self_iff]
  simpa using h

theorem strtol_of_not_space (c : Char) (rest : CStr) (hsp : isspace c = false) :
    strtol (c :: rest) =
      (let signed : Bool := c.toNat = 45 || c.toNat = 43
       let s2 := if signed then rest else c :: rest
       let ds := s2.takeWhile isdigit
       if ds.length = 0 then ⟨0, 0, false⟩
       else
         let n : Int := (digits_value ds : Int)
         let consumed := (if signed then 1 else 0) + ds.length
         if c.toNat = 45 then
           if -n < LONG_MIN then ⟨LONG_MIN, consumed, true⟩ else ⟨-n, consumed, false⟩
         else
           if LONG_MAX < n then ⟨LONG_MAX, consumed, true⟩ else ⟨n, consumed, false⟩) := by
  unfold strtol
  simp [skipspace, hsp]

theorem strtol_of_numeral (s : CStr) (v : Int) (h : numeral_denotes s = some v)
    (hmin : LONG_MIN ≤ v) (hmax : v ≤ LONG_MAX) :
    (strtol s).val = v ∧ (strtol s).consumed = s.length ∧ (strtol s).erange = false := by
  cases s with
  | nil => simp [numeral_denotes] at h
  | cons c rest =>
    unfold numeral_denotes at h
    simp only at h
    split_ifs at h with h45 hd h43 hd2 hd3
    · have hsp : isspace c = false := by simp [isspace, h45]
      have hlen : rest.length ≠ 0 := by
        intro h0
        exact hd.1 (List.length_eq_zero.mp h0)
      simp only [Option.some.injEq] at h
      rw [strtol_of_not_space c rest hsp]
      simp only [h45, Bool.true_or, decide_True, if_true, takeWhile_isdigit_of_all rest hd.2,
        hlen, if_false, digits_value_eq_denote, h]
      have : ¬ v < LONG_MIN := by omega
      simp [this]
      omega
    · have hsp : isspace c = false := by simp [isspace, h43]
      have hlen : rest.length ≠ 0 := by
        intro h0
        exact hd2.1 (List.length_eq_zero.mp h0)
      simp only [Option.some.injEq] at h
      rw [strtol_of_not_space c rest hsp]
      simp only [h45, h43, Bool.or_true, decide_True, decide_False, if_true,
        takeWhile_isdigit_of_all rest hd2.2, hlen, if_false, digits_value_eq_denote, h]
      have : ¬ LONG_MAX < v := by omega
      simp [this]
      omega
    · have hdc : isdigit c = true := by
        simp only [List.all_cons, Bool.and_eq_true] at hd3
        exact hd3.1
      have hrange : 48 ≤ c.toNat ∧ c.toNat ≤ 57 := by
        simpa [isdigit] using hdc
      have hsp : isspace c = false := by
        have e1 : ¬ c.toNat = 32 := by omega
        have e2 : ¬ c.toNat ≤ 13 := by omega
        simp [isspace, e1, e2]
      simp only [Option.some.injEq] at h
      rw [strtol_of_not_space c rest hsp]
      have ht := takeWhile_isdigit_of_all (c :: rest) hd3
      have : ¬ LONG_MAX < v := by omega
      simp only [h45, h43, Bool.or_false, decide_False, Bool.false_eq_true, if_false, ht,
        digits_value_eq_denote, h]
      simp [this]

theorem long_to_int_of_int_range (v : Int) (hmin : -2147483648 ≤ v) (hmax : v ≤ 2147483647) :
    long_to_int v = v := by
  unfold long_to_int
  norm_num
  omega

/-- The field of an integer or smallint column whose text is a numeral
within the range of `long`: the number denoted, reduced to 32 bits. -/
theorem column_field_of_numeral {F : Type} (fp : fp_env F) (col : column) (v : Int)
    (hty : col.type = odbx_type.INTEGER ∨ col.type = odbx_type.SMALLINT)
    (hnum : numeral_denotes col.value = some v)
    (hmin : LONG_MIN ≤ v) (hmax : v ≤ LONG_MAX) :
    column_field fp col =
      some ⟨col.name, oval_datatype_t.OVAL_DATATYPE_INTEGER,
        sexp_value.number_i (long_to_int v)⟩ := by
  have hv := (strtol_of_numeral col.value v hnum hmin hmax).1
  unfold column_field column_switch
  rcases hty with h | h <;> simp [h, hv]

/-- C17: the text "4294967338" is a base-10 numeral that denotes 4294967338,
and an integer column with this text gets a field with the value 42. -/
theorem C17_large_numeral_truncated :
    numeral_denotes "4294967338".toList = some 4294967338 ∧
    column_field fp_unit ⟨"n".toList, odbx_type.INTEGER, "4294967338".toList⟩ =
      some ⟨"n".toList, oval_datatype_t.OVAL_DATATYPE_INTEGER, sexp_value.number_i 42⟩ := by
  decide

/-- C17: for every integer or smallint column whose text is an optionally
signed base-10 numeral that denotes an integer within the range of a 32-bit
signed integer, the field emitted has the type Integer and that integer as
its value. -/
theorem C17_numeral_in_int_range {F : Type} (fp : fp_env F) (col : column) (v : Int)
    (hty : col.type = odbx_type.INTEGER ∨ col.type = odbx_type.SMALLINT)
    (hnum : numeral_denotes col.value = some v)
    (hmin : -2147483648 ≤ v) (hmax : v ≤ 2147483647) :
    column_field fp col =
      some ⟨col.name, oval_datatype_t.OVAL_DATATYPE_INTEGER, sexp_value.number_i v⟩ := by
  have h1 : LONG_MIN ≤ v := by unfold LONG_MIN; omega
  have h2 : v ≤ LONG_MAX := by unfold LONG_MAX; omega
  rw [column_field_of_numeral fp col v hty hnum h1 h2,
    long_to_int_of_int_range v hmin hmax]

/-- C17 at a smallint column with the text "-2147483648", the smallest
32-bit integer. -/
theorem C17_numeral_in_int_range_witness :
    ((odbx_type.SMALLINT = odbx_type.INTEGER ∨ odbx_type.SMALLINT = odbx_type.SMALLINT) ∧
      numeral_denotes "-2147483648".toList = some (-2147483648) ∧
      (-2147483648 : Int) ≤ -2147483648 ∧ (-2147483648 : Int) ≤ 2147483647) ∧
    column_field fp_unit ⟨"n".toList, odbx_type.SMALLINT, "-2147483648".toList⟩ =
      some ⟨"n".toList, oval_datatype_t.OVAL_DATATYPE_INTEGER,
        sexp_value.number_i (-2147483648)⟩ :=
  ⟨⟨Or.inr rfl, by decide, by decide, by decide⟩,
    C17_numeral_in_int_range fp_unit ⟨"n".toList, odbx_type.SMALLINT, "-2147483648".toList⟩
      (-2147483648) (Or.inr rfl) (by decide) (by decide) (by decide)⟩

end Sql57
